import Mathlib

/-!
Verification of the edge re-routing geometry engine of the
Mermaid-Diagram-Viewer repository (`src/script.js`, final script version).

Modelling conventions:
* JavaScript numbers are modelled as rationals (`ℚ`).
* `Math.sqrt` results are not rational in general, so every square root the
  code computes is passed to the embedded function as an explicit parameter,
  constrained in the theorems by the hypotheses `0 ≤ r ∧ r ^ 2 = …`
  (which characterise `Math.sqrt` exactly).  This keeps every definition
  computable so that concrete witnesses can be checked by `decide`.
* Inside `findIntersection`, the source computes
  `dist = t * Math.sqrt (dx*dx + dy*dy)` and keeps the candidate with the
  smallest `dist`.  Within a single call the factor `Math.sqrt (dx*dx+dy*dy)`
  is one and the same strictly positive constant for every candidate
  (every candidate branch requires `dx` or `dy` to be nonzero), so
  minimising `dist` is equivalent to minimising `t`; the embedding
  therefore minimises the parameter `t` itself.
-/

namespace MermaidViewer

/-- A 2-D point with rational coordinates (a JS `{x, y}` object). -/
structure Point where
  x : ℚ
  y : ℚ
deriving DecidableEq, Repr

/-- The object returned by `getNodeRect` in `src/script.js`: bounding box
combined with the node's current translation offset. -/
structure Rect where
  x : ℚ
  y : ℚ
  width : ℚ
  height : ℚ
  centerX : ℚ
  centerY : ℚ
  left : ℚ
  right : ℚ
  top : ℚ
  bottom : ℚ
deriving DecidableEq, Repr

/-- A node's local bounding box, as returned by `getBBox()`. -/
structure BBox where
  x : ℚ
  y : ℚ
  width : ℚ
  height : ℚ
deriving DecidableEq, Repr

/-- `getNodeCenterPosition` (src/script.js): local bounding-box center plus
the node's parsed translation offset. -/
def getNodeCenterPosition (bbox : BBox) (t : Point) : Point :=
  ⟨bbox.x + bbox.width / 2 + t.x, bbox.y + bbox.height / 2 + t.y⟩

/-- `getNodeRect` (src/script.js): the world-space rectangle of a node. -/
def getNodeRect (bbox : BBox) (t : Point) : Rect :=
  { x := bbox.x + t.x
    y := bbox.y + t.y
    width := bbox.width
    height := bbox.height
    centerX := bbox.x + bbox.width / 2 + t.x
    centerY := bbox.y + bbox.height / 2 + t.y
    left := bbox.x + t.x
    right := bbox.x + bbox.width + t.x
    top := bbox.y + t.y
    bottom := bbox.y + bbox.height + t.y }

/-- One update step of the running `minDist`/`closestPoint` pair of
`findIntersection`: keep `best` unless the new candidate is strictly
closer (`dist < minDist` in the source; here the common positive factor
`Math.sqrt (dx*dx+dy*dy)` is cancelled, see the file comment). -/
def updMin (best cand : Option (ℚ × Point)) : Option (ℚ × Point) :=
  match best, cand with
  | none, c => c
  | some b, none => some b
  | some (t0, p0), some (t, p) => if t < t0 then some (t, p) else some (t0, p0)

/-- Inside-the-rectangle candidate for the left edge (`x = rect.left`),
checked only when the ray is going left (`dx < 0`). -/
def candLeftInside (rect : Rect) (fromX fromY dx dy : ℚ) : Option (ℚ × Point) :=
  if dx < 0 then
    let t := (rect.left - fromX) / dx
    let y := fromY + t * dy
    if rect.top ≤ y ∧ y ≤ rect.bottom then some (t, ⟨rect.left, y⟩) else none
  else none

/-- Inside candidate for the right edge (`x = rect.right`), only if `dx > 0`. -/
def candRightInside (rect : Rect) (fromX fromY dx dy : ℚ) : Option (ℚ × Point) :=
  if dx > 0 then
    let t := (rect.right - fromX) / dx
    let y := fromY + t * dy
    if rect.top ≤ y ∧ y ≤ rect.bottom then some (t, ⟨rect.right, y⟩) else none
  else none

/-- Inside candidate for the top edge (`y = rect.top`), only if `dy < 0`. -/
def candTopInside (rect : Rect) (fromX fromY dx dy : ℚ) : Option (ℚ × Point) :=
  if dy < 0 then
    let t := (rect.top - fromY) / dy
    let x := fromX + t * dx
    if rect.left ≤ x ∧ x ≤ rect.right then some (t, ⟨x, rect.top⟩) else none
  else none

/-- Inside candidate for the bottom edge (`y = rect.bottom`), only if `dy > 0`. -/
def candBottomInside (rect : Rect) (fromX fromY dx dy : ℚ) : Option (ℚ × Point) :=
  if dy > 0 then
    let t := (rect.bottom - fromY) / dy
    let x := fromX + t * dx
    if rect.left ≤ x ∧ x ≤ rect.right then some (t, ⟨x, rect.bottom⟩) else none
  else none

/-- Outside candidate for the left edge: parametric `t ∈ [0,1]` along the
segment, plus the coordinate range check. -/
def candLeftOutside (rect : Rect) (fromX fromY dx dy : ℚ) : Option (ℚ × Point) :=
  if dx ≠ 0 then
    let t := (rect.left - fromX) / dx
    if 0 ≤ t ∧ t ≤ 1 then
      let y := fromY + t * dy
      if rect.top ≤ y ∧ y ≤ rect.bottom then some (t, ⟨rect.left, y⟩) else none
    else none
  else none

/-- Outside candidate for the right edge. -/
def candRightOutside (rect : Rect) (fromX fromY dx dy : ℚ) : Option (ℚ × Point) :=
  if dx ≠ 0 then
    let t := (rect.right - fromX) / dx
    if 0 ≤ t ∧ t ≤ 1 then
      let y := fromY + t * dy
      if rect.top ≤ y ∧ y ≤ rect.bottom then some (t, ⟨rect.right, y⟩) else none
    else none
  else none

/-- Outside candidate for the top edge. -/
def candTopOutside (rect : Rect) (fromX fromY dx dy : ℚ) : Option (ℚ × Point) :=
  if dy ≠ 0 then
    let t := (rect.top - fromY) / dy
    if 0 ≤ t ∧ t ≤ 1 then
      let x := fromX + t * dx
      if rect.left ≤ x ∧ x ≤ rect.right then some (t, ⟨x, rect.top⟩) else none
    else none
  else none

/-- Outside candidate for the bottom edge. -/
def candBottomOutside (rect : Rect) (fromX fromY dx dy : ℚ) : Option (ℚ × Point) :=
  if dy ≠ 0 then
    let t := (rect.bottom - fromY) / dy
    if 0 ≤ t ∧ t ≤ 1 then
      let x := fromX + t * dx
      if rect.left ≤ x ∧ x ≤ rect.right then some (t, ⟨x, rect.bottom⟩) else none
    else none
  else none

/-- The `// If no intersection is found` fallback of `findIntersection`:
clamp onto the edge whose coordinate line is nearest (ties resolved in the
order left, right, top, bottom, following the source's `if` chain). -/
def nearestEdgeFallback (rect : Rect) (fromX fromY : ℚ) : Point :=
  let leftDist := |rect.left - fromX|
  let rightDist := |rect.right - fromX|
  let topDist := |rect.top - fromY|
  let bottomDist := |rect.bottom - fromY|
  let minEdgeDist := min (min (min leftDist rightDist) topDist) bottomDist
  if minEdgeDist = leftDist then ⟨rect.left, max rect.top (min rect.bottom fromY)⟩
  else if minEdgeDist = rightDist then ⟨rect.right, max rect.top (min rect.bottom fromY)⟩
  else if minEdgeDist = topDist then ⟨max rect.left (min rect.right fromX), rect.top⟩
  else ⟨max rect.left (min rect.right fromX), rect.bottom⟩

/-- The running minimum over the four inside-ray candidates, in source
order (left, right, top, bottom). -/
def insideBest (rect : Rect) (fromX fromY dx dy : ℚ) : Option (ℚ × Point) :=
  updMin (updMin (updMin (updMin none (candLeftInside rect fromX fromY dx dy))
      (candRightInside rect fromX fromY dx dy))
    (candTopInside rect fromX fromY dx dy))
  (candBottomInside rect fromX fromY dx dy)

/-- The running minimum over the four outside-segment candidates. -/
def outsideBest (rect : Rect) (fromX fromY dx dy : ℚ) : Option (ℚ × Point) :=
  updMin (updMin (updMin (updMin none (candLeftOutside rect fromX fromY dx dy))
      (candRightOutside rect fromX fromY dx dy))
    (candTopOutside rect fromX fromY dx dy))
  (candBottomOutside rect fromX fromY dx dy)

/-- `findIntersection` (src/script.js): boundary crossing of the
segment/ray from `(fromX, fromY)` toward `(toX, toY)` with `rect`. -/
def findIntersection (rect : Rect) (fromX fromY toX toY : ℚ) : Point :=
  let dx := toX - fromX
  let dy := toY - fromY
  let inside : Option (ℚ × Point) :=
    if rect.left ≤ fromX ∧ fromX ≤ rect.right ∧ rect.top ≤ fromY ∧ fromY ≤ rect.bottom then
      insideBest rect fromX fromY dx dy
    else none
  match inside with
  | some (_, p) => p
  | none =>
    match outsideBest rect fromX fromY dx dy with
    | some (_, p) => p
    | none => nearestEdgeFallback rect fromX fromY

/-- The measured label box (`label.getBBox()`); only `width` and `height`
are read by `updateEdgePosition`. -/
structure LabelBox where
  width : ℚ
  height : ℚ
deriving DecidableEq, Repr

/-- The path emitted by `updateEdgePosition`: a straight `M … L …` segment
or a quadratic `M … Q … …` curve. -/
inductive EdgePath where
  | line (p1 p2 : Point)
  | quad (p1 c p2 : Point)
deriving DecidableEq, Repr

/-- What one `updateEdgePosition` call writes back to the DOM: the edge's
`d` path and, when a label is present, the label's new translation. -/
structure EdgeResult where
  path : EdgePath
  label : Option Point
deriving DecidableEq, Repr

/-- The data `updateEdgePosition` reads: each node's local bounding box and
current parsed translation offset, the connection's marker attributes, and
the label (`some m`: a label element is present; `m = none` models
`label.getBBox()` throwing, in which case the source keeps the fallback
box `{width: 10, height: 5}`). -/
structure ConnInputs where
  sourceBBox : BBox
  sourceT : Point
  targetBBox : BBox
  targetT : Point
  markerStart : Option String
  markerEnd : Option String
  label : Option (Option LabelBox)
deriving DecidableEq, Repr

/-- The four `Math.sqrt` values computed by one `updateEdgePosition` call,
passed explicitly (see the file comment): the clipped-segment length, the
perpendicular vector's length, and the start→control / control→end
distances of the curved branch. -/
structure SqrtIn where
  length : ℚ
  perpLen : ℚ
  lenStartCtrl : ℚ
  lenCtrlEnd : ℚ
deriving DecidableEq, Repr

/-- `sourceCenter = getNodeCenterPosition(source)`. -/
def sourceCenter (g : ConnInputs) : Point :=
  getNodeCenterPosition g.sourceBBox g.sourceT

/-- `targetCenter = getNodeCenterPosition(target)`. -/
def targetCenter (g : ConnInputs) : Point :=
  getNodeCenterPosition g.targetBBox g.targetT

/-- `sourceRect = getNodeRect(source)`. -/
def sourceRect (g : ConnInputs) : Rect := getNodeRect g.sourceBBox g.sourceT

/-- `targetRect = getNodeRect(target)`. -/
def targetRect (g : ConnInputs) : Rect := getNodeRect g.targetBBox g.targetT

/-- `sourceIntersection` — the clipped start point.  (`findIntersection`
returns on every control path, so the source's `|| sourceCenter` fallback
is never taken and is not modelled.) -/
def pathStart0 (g : ConnInputs) : Point :=
  findIntersection (sourceRect g) (sourceCenter g).x (sourceCenter g).y
    (targetCenter g).x (targetCenter g).y

/-- `targetIntersection` — the clipped end point. -/
def pathEnd0 (g : ConnInputs) : Point :=
  findIntersection (targetRect g) (targetCenter g).x (targetCenter g).y
    (sourceCenter g).x (sourceCenter g).y

/-- `dx = pathEnd.x - pathStart.x` (the clipped segment's direction). -/
def segDx (g : ConnInputs) : ℚ := (pathEnd0 g).x - (pathStart0 g).x

/-- `dy = pathEnd.y - pathStart.y`. -/
def segDy (g : ConnInputs) : ℚ := (pathEnd0 g).y - (pathStart0 g).y

/-- `hasStartArrow = markerStart && markerStart.length > 0`. -/
def hasStartArrow (g : ConnInputs) : Bool :=
  match g.markerStart with
  | some s => s.length > 0
  | none => false

/-- `hasEndArrow = markerEnd && markerEnd.length > 0`. -/
def hasEndArrow (g : ConnInputs) : Bool :=
  match g.markerEnd with
  | some s => s.length > 0
  | none => false

/-- `labelBBox`, defaulting to `{width: 10, height: 5}` when there is no
label or `label.getBBox()` throws. -/
def labelBBox (g : ConnInputs) : LabelBox :=
  match g.label with
  | some (some b) => b
  | _ => ⟨10, 5⟩

/-- The `useStandardPerp` flag of the curved branch: starts `true`, and the
four sign cases on `(dx, dy)` flip it depending on
`isMoreVertical = Math.abs(dy) >= Math.abs(dx)`. -/
def useStandardPerp (dx dy : ℚ) : Bool :=
  let isMoreVertical := decide (|dy| ≥ |dx|)
  if 0 ≤ dx ∧ dy < 0 then !isMoreVertical
  else if 0 ≤ dx ∧ 0 ≤ dy then isMoreVertical
  else if dx < 0 ∧ 0 ≤ dy then !isMoreVertical
  else isMoreVertical

/-- The chosen perpendicular `(perpX, perpY)`: the standard perpendicular
`(-dy, dx)` or its negation, per `useStandardPerp`. -/
def perpVec (dx dy : ℚ) : Point :=
  let standardPerpX := -dy
  let standardPerpY := dx
  if useStandardPerp dx dy then ⟨-standardPerpX, -standardPerpY⟩
  else ⟨standardPerpX, standardPerpY⟩

/-- `(normPerpX, normPerpY)`: the perpendicular normalised by its length
`perpLen` (a `Math.sqrt` parameter), with the source's explicit
`perpLength === 0 ? 0 : …` guard. -/
def normPerp (dx dy perpLen : ℚ) : Point :=
  if perpLen = 0 then ⟨0, 0⟩
  else ⟨(perpVec dx dy).x / perpLen, (perpVec dx dy).y / perpLen⟩

/-- `curveOffset = Math.max(5, Math.min(50, length * 0.15))`. -/
def curveOffset (length : ℚ) : ℚ :=
  max 5 (min 50 (length * (3 / 20)))

/-- The midpoint of the clipped segment. -/
def midPoint0 (g : ConnInputs) : Point :=
  ⟨((pathStart0 g).x + (pathEnd0 g).x) / 2, ((pathStart0 g).y + (pathEnd0 g).y) / 2⟩

/-- `(controlX, controlY)`: midpoint displaced along the normalised
perpendicular by `curveOffset`. -/
def controlPoint (g : ConnInputs) (sq : SqrtIn) : Point :=
  let np := normPerp (segDx g) (segDy g) sq.perpLen
  let co := curveOffset sq.length
  ⟨(midPoint0 g).x + np.x * co, (midPoint0 g).y + np.y * co⟩

/-- Curved-branch start adjustment: move `pathStart` along the unit
start→control direction by 20 (arrow) or 5 (no arrow); the source guards
the normalisation with `lenStartCtrl === 0 ? 0 : …`. -/
def curvedAdjStart (g : ConnInputs) (sq : SqrtIn) : Point :=
  let s := pathStart0 g
  let c := controlPoint g sq
  let dxStartCtrl := c.x - s.x
  let dyStartCtrl := c.y - s.y
  let unitStartX := if sq.lenStartCtrl = 0 then 0 else dxStartCtrl / sq.lenStartCtrl
  let unitStartY := if sq.lenStartCtrl = 0 then 0 else dyStartCtrl / sq.lenStartCtrl
  ⟨s.x + unitStartX * (if hasStartArrow g then 20 else 5),
   s.y + unitStartY * (if hasStartArrow g then 20 else 5)⟩

/-- Curved-branch end adjustment: move `pathEnd` back along the unit
control→end direction by 20 (arrow) or 5 (no arrow). -/
def curvedAdjEnd (g : ConnInputs) (sq : SqrtIn) : Point :=
  let e := pathEnd0 g
  let c := controlPoint g sq
  let dxCtrlEnd := e.x - c.x
  let dyCtrlEnd := e.y - c.y
  let unitEndX := if sq.lenCtrlEnd = 0 then 0 else dxCtrlEnd / sq.lenCtrlEnd
  let unitEndY := if sq.lenCtrlEnd = 0 then 0 else dyCtrlEnd / sq.lenCtrlEnd
  ⟨e.x - unitEndX * (if hasEndArrow g then 20 else 5),
   e.y - unitEndY * (if hasEndArrow g then 20 else 5)⟩

/-- `updateEdgePosition` (src/script.js): recompute one connection's path
and label placement from the nodes' current rectangles.  `useCurvedEdges`
is the global curved-mode flag; `sq` carries the call's `Math.sqrt`
values. -/
def updateEdgePosition (g : ConnInputs) (useCurvedEdges : Bool) (sq : SqrtIn) : EdgeResult :=
  let pathStart := pathStart0 g
  let pathEnd := pathEnd0 g
  let dx := segDx g
  let dy := segDy g
  let length := sq.length
  let lb := labelBBox g
  if useCurvedEdges ∧ 0 < length then
    let np := normPerp dx dy sq.perpLen
    let control := controlPoint g sq
    let s := if 10 < length then curvedAdjStart g sq else pathStart
    let e := if 10 < length then curvedAdjEnd g sq else pathEnd
    { path := .quad s control e
      label :=
        if g.label.isSome then
          some ⟨control.x + np.x * (lb.height / 2 + 2) - lb.width / 2,
                control.y + np.y * (lb.height / 2 + 2)⟩
        else none }
  else
    let s :=
      if 10 < length then
        let unitX := dx / length
        let unitY := dy / length
        (⟨pathStart.x + unitX * (if hasStartArrow g then 20 else 5),
          pathStart.y + unitY * (if hasStartArrow g then 20 else 5)⟩ : Point)
      else pathStart
    let e :=
      if 10 < length then
        let unitX := dx / length
        let unitY := dy / length
        (⟨pathEnd.x - unitX * (if hasEndArrow g then 20 else 5),
          pathEnd.y - unitY * (if hasEndArrow g then 20 else 5)⟩ : Point)
      else pathEnd
    { path := .line s e
      label :=
        if g.label.isSome then
          some ⟨(s.x + e.x) / 2 - lb.width / 2, (s.y + e.y) / 2⟩
        else none }

/-- `sq.length` is `Math.sqrt(dx*dx + dy*dy)` for the clipped segment. -/
def lenValid (g : ConnInputs) (sq : SqrtIn) : Prop :=
  0 ≤ sq.length ∧ sq.length ^ 2 = segDx g ^ 2 + segDy g ^ 2

/-- `sq.perpLen` is `Math.sqrt(perpX*perpX + perpY*perpY)`. -/
def perpValid (g : ConnInputs) (sq : SqrtIn) : Prop :=
  0 ≤ sq.perpLen ∧
    sq.perpLen ^ 2 = (perpVec (segDx g) (segDy g)).x ^ 2 + (perpVec (segDx g) (segDy g)).y ^ 2

/-- `sq.lenStartCtrl` and `sq.lenCtrlEnd` are the `Math.sqrt` distances
from `pathStart` to the control point and from the control point to
`pathEnd`. -/
def ctrlValid (g : ConnInputs) (sq : SqrtIn) : Prop :=
  (0 ≤ sq.lenStartCtrl ∧
    sq.lenStartCtrl ^ 2 =
      ((controlPoint g sq).x - (pathStart0 g).x) ^ 2 +
        ((controlPoint g sq).y - (pathStart0 g).y) ^ 2) ∧
  (0 ≤ sq.lenCtrlEnd ∧
    sq.lenCtrlEnd ^ 2 =
      ((pathEnd0 g).x - (controlPoint g sq).x) ^ 2 +
        ((pathEnd0 g).y - (controlPoint g sq).y) ^ 2)

instance (g : ConnInputs) (sq : SqrtIn) : Decidable (lenValid g sq) := by
  unfold lenValid; infer_instance

instance (g : ConnInputs) (sq : SqrtIn) : Decidable (perpValid g sq) := by
  unfold perpValid; infer_instance

instance (g : ConnInputs) (sq : SqrtIn) : Decidable (ctrlValid g sq) := by
  unfold ctrlValid; infer_instance

/-- Render a rational the way the emitted path interpolates numbers. -/
def qStr (q : ℚ) : String := toString q

/-- The `d` attribute string written by `updateEdgePosition`
(`M…,… L…,…` or `M…,… Q…,… …,…`). -/
def renderPath : EdgePath → String
  | .line p1 p2 =>
      "M" ++ qStr p1.x ++ "," ++ qStr p1.y ++ " L" ++ qStr p2.x ++ "," ++ qStr p2.y
  | .quad p1 c p2 =>
      "M" ++ qStr p1.x ++ "," ++ qStr p1.y ++ " Q" ++ qStr c.x ++ "," ++ qStr c.y ++
        " " ++ qStr p2.x ++ "," ++ qStr p2.y

/-! ### Checked evaluation

JavaScript produces `NaN`/`Infinity` exactly where a division's denominator
is zero (all other arithmetic in this engine is `+ - *`, which preserves
finiteness).  The `checked…` definitions below repeat the same computations
with every runtime-denominator division routed through `safeDiv`, so
`checked… = some …` states that the corresponding source code never
evaluates a division by zero and its output coordinates are never `NaN`. -/

/-- Division that fails instead of producing a JS `NaN`/`Infinity`. -/
def safeDiv (a b : ℚ) : Option ℚ :=
  if b = 0 then none else some (a / b)

/-- Checked form of `candLeftInside` (outer `none` = division by zero). -/
def candLeftInsideC (rect : Rect) (fromX fromY dx dy : ℚ) : Option (Option (ℚ × Point)) :=
  if dx < 0 then
    (safeDiv (rect.left - fromX) dx).map (fun t =>
      let y := fromY + t * dy
      if rect.top ≤ y ∧ y ≤ rect.bottom then some (t, ⟨rect.left, y⟩) else none)
  else some none

/-- Checked form of `candRightInside`. -/
def candRightInsideC (rect : Rect) (fromX fromY dx dy : ℚ) : Option (Option (ℚ × Point)) :=
  if dx > 0 then
    (safeDiv (rect.right - fromX) dx).map (fun t =>
      let y := fromY + t * dy
      if rect.top ≤ y ∧ y ≤ rect.bottom then some (t, ⟨rect.right, y⟩) else none)
  else some none

/-- Checked form of `candTopInside`. -/
def candTopInsideC (rect : Rect) (fromX fromY dx dy : ℚ) : Option (Option (ℚ × Point)) :=
  if dy < 0 then
    (safeDiv (rect.top - fromY) dy).map (fun t =>
      let x := fromX + t * dx
      if rect.left ≤ x ∧ x ≤ rect.right then some (t, ⟨x, rect.top⟩) else none)
  else some none

/-- Checked form of `candBottomInside`. -/
def candBottomInsideC (rect : Rect) (fromX fromY dx dy : ℚ) : Option (Option (ℚ × Point)) :=
  if dy > 0 then
    (safeDiv (rect.bottom - fromY) dy).map (fun t =>
      let x := fromX + t * dx
      if rect.left ≤ x ∧ x ≤ rect.right then some (t, ⟨x, rect.bottom⟩) else none)
  else some none

/-- Checked form of `candLeftOutside`. -/
def candLeftOutsideC (rect : Rect) (fromX fromY dx dy : ℚ) : Option (Option (ℚ × Point)) :=
  if dx ≠ 0 then
    (safeDiv (rect.left - fromX) dx).map (fun t =>
      if 0 ≤ t ∧ t ≤ 1 then
        let y := fromY + t * dy
        if rect.top ≤ y ∧ y ≤ rect.bottom then some (t, ⟨rect.left, y⟩) else none
      else none)
  else some none

/-- Checked form of `candRightOutside`. -/
def candRightOutsideC (rect : Rect) (fromX fromY dx dy : ℚ) : Option (Option (ℚ × Point)) :=
  if dx ≠ 0 then
    (safeDiv (rect.right - fromX) dx).map (fun t =>
      if 0 ≤ t ∧ t ≤ 1 then
        let y := fromY + t * dy
        if rect.top ≤ y ∧ y ≤ rect.bottom then some (t, ⟨rect.right, y⟩) else none
      else none)
  else some none

/-- Checked form of `candTopOutside`. -/
def candTopOutsideC (rect : Rect) (fromX fromY dx dy : ℚ) : Option (Option (ℚ × Point)) :=
  if dy ≠ 0 then
    (safeDiv (rect.top - fromY) dy).map (fun t =>
      if 0 ≤ t ∧ t ≤ 1 then
        let x := fromX + t * dx
        if rect.left ≤ x ∧ x ≤ rect.right then some (t, ⟨x, rect.top⟩) else none
      else none)
  else some none

/-- Checked form of `candBottomOutside`. -/
def candBottomOutsideC (rect : Rect) (fromX fromY dx dy : ℚ) : Option (Option (ℚ × Point)) :=
  if dy ≠ 0 then
    (safeDiv (rect.bottom - fromY) dy).map (fun t =>
      if 0 ≤ t ∧ t ≤ 1 then
        let x := fromX + t * dx
        if rect.left ≤ x ∧ x ≤ rect.right then some (t, ⟨x, rect.bottom⟩) else none
      else none)
  else some none

/-- Checked form of `findIntersection`. -/
def checkedFindIntersection (rect : Rect) (fromX fromY toX toY : ℚ) : Option Point := do
  let dx := toX - fromX
  let dy := toY - fromY
  let inside ←
    if rect.left ≤ fromX ∧ fromX ≤ rect.right ∧ rect.top ≤ fromY ∧ fromY ≤ rect.bottom then do
      let c1 ← candLeftInsideC rect fromX fromY dx dy
      let c2 ← candRightInsideC rect fromX fromY dx dy
      let c3 ← candTopInsideC rect fromX fromY dx dy
      let c4 ← candBottomInsideC rect fromX fromY dx dy
      pure (updMin (updMin (updMin (updMin none c1) c2) c3) c4)
    else pure (none : Option (ℚ × Point))
  match inside with
  | some (_, p) => pure p
  | none => do
    let c1 ← candLeftOutsideC rect fromX fromY dx dy
    let c2 ← candRightOutsideC rect fromX fromY dx dy
    let c3 ← candTopOutsideC rect fromX fromY dx dy
    let c4 ← candBottomOutsideC rect fromX fromY dx dy
    match updMin (updMin (updMin (updMin none c1) c2) c3) c4 with
    | some (_, p) => pure p
    | none => pure (nearestEdgeFallback rect fromX fromY)

/-- Checked form of the `normPerp` normalisation (the source's own
`perpLength === 0` ternary guard, with the division checked). -/
def checkedNormPerp (dx dy perpLen : ℚ) : Option Point :=
  if perpLen = 0 then some ⟨0, 0⟩
  else do
    let x ← safeDiv (perpVec dx dy).x perpLen
    let y ← safeDiv (perpVec dx dy).y perpLen
    pure ⟨x, y⟩

/-- Checked form of `curvedAdjStart`. -/
def checkedCurvedAdjStart (g : ConnInputs) (sq : SqrtIn) : Option Point := do
  let s := pathStart0 g
  let c := controlPoint g sq
  let unitStartX ← if sq.lenStartCtrl = 0 then pure 0 else safeDiv (c.x - s.x) sq.lenStartCtrl
  let unitStartY ← if sq.lenStartCtrl = 0 then pure 0 else safeDiv (c.y - s.y) sq.lenStartCtrl
  pure ⟨s.x + unitStartX * (if hasStartArrow g then 20 else 5),
        s.y + unitStartY * (if hasStartArrow g then 20 else 5)⟩

/-- Checked form of `curvedAdjEnd`. -/
def checkedCurvedAdjEnd (g : ConnInputs) (sq : SqrtIn) : Option Point := do
  let e := pathEnd0 g
  let c := controlPoint g sq
  let unitEndX ← if sq.lenCtrlEnd = 0 then pure 0 else safeDiv (e.x - c.x) sq.lenCtrlEnd
  let unitEndY ← if sq.lenCtrlEnd = 0 then pure 0 else safeDiv (e.y - c.y) sq.lenCtrlEnd
  pure ⟨e.x - unitEndX * (if hasEndArrow g then 20 else 5),
        e.y - unitEndY * (if hasEndArrow g then 20 else 5)⟩

/-- Checked form of `updateEdgePosition`: `some` exactly when no division
by zero (hence no `NaN` coordinate) is evaluated on the way to the emitted
path and label position. -/
def checkedUpdateEdgePosition (g : ConnInputs) (useCurvedEdges : Bool) (sq : SqrtIn) :
    Option EdgeResult := do
  let pathStart ← checkedFindIntersection (sourceRect g) (sourceCenter g).x (sourceCenter g).y
    (targetCenter g).x (targetCenter g).y
  let pathEnd ← checkedFindIntersection (targetRect g) (targetCenter g).x (targetCenter g).y
    (sourceCenter g).x (sourceCenter g).y
  let dx := pathEnd.x - pathStart.x
  let dy := pathEnd.y - pathStart.y
  let length := sq.length
  let lb := labelBBox g
  if useCurvedEdges ∧ 0 < length then do
    let np ← checkedNormPerp dx dy sq.perpLen
    let co := curveOffset length
    let control : Point := ⟨(pathStart.x + pathEnd.x) / 2 + np.x * co,
                            (pathStart.y + pathEnd.y) / 2 + np.y * co⟩
    let s ← if 10 < length then checkedCurvedAdjStart g sq else pure pathStart
    let e ← if 10 < length then checkedCurvedAdjEnd g sq else pure pathEnd
    pure { path := .quad s control e
           label :=
             if g.label.isSome then
               some ⟨control.x + np.x * (lb.height / 2 + 2) - lb.width / 2,
                     control.y + np.y * (lb.height / 2 + 2)⟩
             else none }
  else do
    let s ← if 10 < length then do
        let unitX ← safeDiv dx length
        let unitY ← safeDiv dy length
        pure (⟨pathStart.x + unitX * (if hasStartArrow g then 20 else 5),
               pathStart.y + unitY * (if hasStartArrow g then 20 else 5)⟩ : Point)
      else pure pathStart
    let e ← if 10 < length then do
        let unitX ← safeDiv dx length
        let unitY ← safeDiv dy length
        pure (⟨pathEnd.x - unitX * (if hasEndArrow g then 20 else 5),
               pathEnd.y - unitY * (if hasEndArrow g then 20 else 5)⟩ : Point)
      else pure pathEnd
    pure { path := .line s e
           label :=
             if g.label.isSome then
               some ⟨(s.x + e.x) / 2 - lb.width / 2, (s.y + e.y) / 2⟩
             else none }

/-! ### Drag controller -/

/-- An SVG affine matrix `[a b c d e f]` (maps `(x, y)` to
`(a*x + c*y + e, b*x + d*y + f)`), as returned by `getScreenCTM()`. -/
structure Matrix2D where
  a : ℚ
  b : ℚ
  c : ℚ
  d : ℚ
  e : ℚ
  f : ℚ
deriving DecidableEq, Repr

/-- The platform's `SVGMatrix.inverse()` (standard affine inverse; the
browser throws when the determinant is zero — the claims below never read
a field affected by that case with a zero determinant). -/
def Matrix2D.inverse (m : Matrix2D) : Matrix2D :=
  let det := m.a * m.d - m.b * m.c
  { a := m.d / det
    b := -m.b / det
    c := -m.c / det
    d := m.a / det
    e := (m.c * m.f - m.d * m.e) / det
    f := (m.b * m.e - m.a * m.f) / det }

/-- The position update of `handleNodeMouseMove` (src/script.js) during an
active drag: screen delta since the drag baseline, pushed through the
linear part `(a, b, c, d)` of the viewport CTM's inverse, added to the
baseline transform.  (The surrounding DOM-presence checks and the
`setAttribute`/edge-update side effects are outside this pure core.) -/
def handleNodeMouseMove (ctm : Matrix2D) (startClientX startClientY clientX clientY : ℚ)
    (initialTransform : Point) : Point :=
  let deltaClientX := clientX - startClientX
  let deltaClientY := clientY - startClientY
  let ctmInverse := ctm.inverse
  let deltaSvgX := ctmInverse.a * deltaClientX + ctmInverse.c * deltaClientY
  let deltaSvgY := ctmInverse.b * deltaClientX + ctmInverse.d * deltaClientY
  ⟨initialTransform.x + deltaSvgX, initialTransform.y + deltaSvgY⟩

/-- Translating a node (the drag handler overwrites the node's transform
with `baseline + delta`): the source node's offset moves by `delta`. -/
def translateSource (g : ConnInputs) (delta : Point) : ConnInputs :=
  { g with sourceT := ⟨g.sourceT.x + delta.x, g.sourceT.y + delta.y⟩ }

/-- Translating the target node's offset by `delta`. -/
def translateTarget (g : ConnInputs) (delta : Point) : ConnInputs :=
  { g with targetT := ⟨g.targetT.x + delta.x, g.targetT.y + delta.y⟩ }

/-! ### Transform-attribute parsing (`getNodeTransform`) -/

/-- A JavaScript number as `parseFloat` can produce it: a finite value,
an infinity (e.g. `parseFloat("Infinity")` or an overflowing literal), or
`NaN`. -/
inductive JsNum where
  | fin (q : ℚ)
  | posInf
  | negInf
  | nan
deriving DecidableEq, Repr

/-- Is a JS number finite (neither an infinity nor `NaN`)? -/
def JsNum.isFinite : JsNum → Bool
  | .fin _ => true
  | _ => false

/-- `v || 0` for a JS number: `NaN` and `±0` are falsy and give `0`. -/
def jsOr0 (v : JsNum) : JsNum :=
  if v = .nan ∨ v = .fin 0 then .fin 0 else v

/-- `getNodeTransform` (src/script.js).  The browser's regex engine and
`parseFloat` are external platform collaborators, passed in abstractly:
`rmatch s` is the result of matching
`/translate\(\s*([^,)]+)(?:,\s*([^)]+))?\)/` against `s` (`none` = no
match; the second capture group may not participate), and `parseFloat`
maps a captured string to a JS number.  A missing/empty attribute is
replaced by the literal `'translate(0,0)'` before matching (`||` on a
falsy string), and an absent second group parses as `NaN`
(`parseFloat(undefined)`); each `parseFloat` result then goes through
`|| 0`. -/
def getNodeTransform (rmatch : String → Option (String × Option String))
    (parseFloat : String → JsNum) (attr : Option String) : JsNum × JsNum :=
  let transformAttr :=
    match attr with
    | some s => if s = "" then "translate(0,0)" else s
    | none => "translate(0,0)"
  match rmatch transformAttr with
  | some (m1, m2) =>
    (jsOr0 (parseFloat m1),
     jsOr0 (match m2 with | some s => parseFloat s | none => .nan))
  | none => (.fin 0, .fin 0)

/-! ### Connection index (`analyzeEdges` / `updateConnectedEdges`) -/

/-- A rendered `g.node` element: its `id` attribute, local bounding box
and parsed translation offset; `tag` models DOM element identity (the
source compares elements with `===`). -/
structure SvgNode where
  id : String
  bbox : BBox
  tx : ℚ
  ty : ℚ
  tag : ℕ
deriving DecidableEq, Repr

/-- A rendered edge `path` element: `id`, `d`, marker attributes, and an
element-identity tag. -/
structure SvgEdge where
  id : String
  d : String
  markerStart : Option String
  markerEnd : Option String
  tag : ℕ
deriving DecidableEq, Repr

/-- A rendered `g.edgeLabel` element (identity only). -/
structure SvgLabel where
  tag : ℕ
deriving DecidableEq, Repr

/-- `getNodeCenterPosition(node)` on an indexed node. -/
def nodeCenterOf (n : SvgNode) : Point :=
  getNodeCenterPosition n.bbox ⟨n.tx, n.ty⟩

/-- One entry of the `edgeConnections` map built by `analyzeEdges`. -/
structure Connection where
  edge : SvgEdge
  source : SvgNode
  target : SvgNode
  label : Option SvgLabel
  originalD : String
  markerStart : Option String
  markerEnd : Option String
  initialSourcePos : Point
  initialTargetPos : Point
deriving DecidableEq, Repr

/-- JS `Map.set`: overwrite in place if the key exists (keeping insertion
order), otherwise append. -/
def mapSet {α β : Type} [DecidableEq α] (m : List (α × β)) (k : α) (v : β) :
    List (α × β) :=
  match m with
  | [] => [(k, v)]
  | (k', v') :: rest => if k' = k then (k, v) :: rest else (k', v') :: mapSet rest k v

/-- The `nodeMap` of `analyzeEdges`: every node with a truthy (nonempty)
`id`, keyed by `id`, in document order. -/
def buildNodeMap (nodes : List SvgNode) : List (String × SvgNode) :=
  nodes.foldl (fun m n => if n.id ≠ "" then mapSet m n.id n else m) []

/-- Does `sub` occur as a contiguous run inside `l`? -/
def listHasInfix (sub : List Char) : List Char → Bool
  | [] => sub.isEmpty
  | c :: rest => sub.isPrefixOf (c :: rest) || listHasInfix sub rest

/-- JS `String.prototype.includes`. -/
def strIncludes (s sub : String) : Bool :=
  listHasInfix sub.data s.data

/-- `Array.from(nodeMap.keys()).find(id => id && id.includes(name))`. -/
def findNodeId (m : List (String × SvgNode)) (name : String) : Option String :=
  (m.map Prod.fst).find? (fun id => decide (id ≠ "") && strIncludes id name)

/-- `nodeMap.get(key)`. -/
def mapGet (m : List (String × SvgNode)) (k : String) : Option SvgNode :=
  (m.find? (fun p => decide (p.1 = k))).map Prod.snd

/-- Splitting a character list on a separator character (the result list
is always nonempty). -/
def splitChars (sep : Char) : List Char → List (List Char)
  | [] => [[]]
  | c :: rest =>
    match splitChars sep rest with
    | [] => [[]]
    | h :: t => if c = sep then [] :: h :: t else (c :: h) :: t

/-- JS `String.prototype.split` with a single-character separator
(`edge.id.split('_')`). -/
def strSplitOn (s : String) (sep : Char) : List String :=
  (splitChars sep s.data).map (fun l => String.mk l)

/-- The source/target names extracted from an edge id of the form
`id_Animal_Dog_1` (split on `_`), with the `unknownSource-i` /
`unknownTarget-i` fallbacks for short or missing ids. -/
def edgeNames (e : SvgEdge) (index : ℕ) : String × String :=
  let idParts := if e.id ≠ "" then strSplitOn e.id '_' else []
  if 3 ≤ idParts.length then (idParts.getD 1 "", idParts.getD 2 "")
  else ("unknownSource-" ++ toString index, "unknownTarget-" ++ toString index)

/-- The `edges.forEach` body of `analyzeEdges`: resolve one edge's source
and target names against the node map and store the connection, or drop
the edge when either does not resolve. -/
def analyzeStep (nodeMap : List (String × SvgNode)) (labels : List SvgLabel)
    (acc : List (String × Connection)) (ie : ℕ × SvgEdge) : List (String × Connection) :=
  let i := ie.1
  let e := ie.2
  let edgeId := if e.id ≠ "" then e.id else "edge-index-" ++ toString i
  let names := edgeNames e i
  let correspondingLabel := labels.get? i
  match findNodeId nodeMap names.1, findNodeId nodeMap names.2 with
  | some sourceNodeId, some targetNodeId =>
    match mapGet nodeMap sourceNodeId, mapGet nodeMap targetNodeId with
    | some sourceNode, some targetNode =>
      mapSet acc edgeId
        { edge := e
          source := sourceNode
          target := targetNode
          label := correspondingLabel
          originalD := e.d
          markerStart := e.markerStart
          markerEnd := e.markerEnd
          initialSourcePos := nodeCenterOf sourceNode
          initialTargetPos := nodeCenterOf targetNode }
    | _, _ => acc
  | _, _ => acc

/-- `analyzeEdges` (src/script.js): rebuild the connection index from the
rendered nodes, edge paths and edge labels, dropping every edge whose
source or target name does not resolve against the current nodes. -/
def analyzeEdges (nodes : List SvgNode) (edges : List SvgEdge) (labels : List SvgLabel) :
    List (String × Connection) :=
  edges.enum.foldl (analyzeStep (buildNodeMap nodes) labels) []

/-- `updateConnectedEdges(node)`: the connections one Edge Router pass
processes for `node` — those index entries whose source or target is the
moved element (nothing if the node has no truthy id). -/
def updateConnectedEdges (node : SvgNode) (index : List (String × Connection)) :
    List Connection :=
  if node.id = "" then []
  else (index.filter (fun p => decide (p.2.source = node ∨ p.2.target = node))).map Prod.snd

/-! ### Specification-side definition for the degenerate fallback (C8) -/

/-- Follows the specification text, for comparison with the source's
fallback: "the clamped projection of `P` onto the nearest side of `R`",
nearest meaning the side (as a segment) whose clamped projection is
closest to `P`, ties in the order left, right, top, bottom. -/
def specNearestSideProjection (rect : Rect) (fromX fromY : ℚ) : Point :=
  let pl : Point := ⟨rect.left, max rect.top (min rect.bottom fromY)⟩
  let pr : Point := ⟨rect.right, max rect.top (min rect.bottom fromY)⟩
  let pt : Point := ⟨max rect.left (min rect.right fromX), rect.top⟩
  let pb : Point := ⟨max rect.left (min rect.right fromX), rect.bottom⟩
  let d2 := fun (p : Point) => (p.x - fromX) ^ 2 + (p.y - fromY) ^ 2
  let m := min (min (min (d2 pl) (d2 pr)) (d2 pt)) (d2 pb)
  if d2 pl = m then pl
  else if d2 pr = m then pr
  else if d2 pt = m then pt
  else pb

/-! ### Concrete configurations used by witnesses and counterexamples

`exCurved` is built so that every square root the curved branch takes is
rational: the clipped segment is the horizontal run from `(0, 0)` to
`(40/3, 0)` (length `40/3 > 10`), the control point is `(20/3, 5)`
(`0.15 × 40/3 = 2` clamps up to `5`), and the start→control and
control→end distances are both `25/3` (3-4-5 triangles). -/

/-- Curved-mode configuration: source box `[-20,0] × [-10,10]`, target box
`[40/3, 40/3+20] × [-10,10]`, a nonempty `marker-start`, no label. -/
def exCurved : ConnInputs :=
  ⟨⟨-20, -10, 20, 20⟩, ⟨0, 0⟩, ⟨40/3, -10, 20, 20⟩, ⟨0, 0⟩, some "url(#arrowhead)", none, none⟩

/-- The `Math.sqrt` values of the `exCurved` call. -/
def exCurvedSq : SqrtIn := ⟨40/3, 40/3, 25/3, 25/3⟩

/-- Scenario A of the specification: nodes `(0,0,100,50)` and
`(200,0,100,50)`, no markers, with a measured `30 × 12` label. -/
def exStraight : ConnInputs :=
  ⟨⟨0, 0, 100, 50⟩, ⟨0, 0⟩, ⟨200, 0, 100, 50⟩, ⟨0, 0⟩, none, none, some (some ⟨30, 12⟩)⟩

/-- The `Math.sqrt` values of the `exStraight` call (the clipped segment
runs from `(100, 25)` to `(200, 25)`; the straight branch only reads
`length`). -/
def exStraightSq : SqrtIn := ⟨100, 100, 0, 0⟩

/-- Coincident centers with different box shapes: a `10 × 10` source and a
`40 × 60` target, both centered at the origin.  The clips fall on
`(-5, 0)` and `(-20, 0)`, fifteen units apart. -/
def exCoincident : ConnInputs :=
  ⟨⟨-5, -5, 10, 10⟩, ⟨0, 0⟩, ⟨-20, -30, 40, 60⟩, ⟨0, 0⟩, none, none, none⟩

/-- The `Math.sqrt` values of the `exCoincident` call. -/
def exCoincidentSq : SqrtIn := ⟨15, 15, 0, 0⟩

/-- Coincident centers with *identical* boxes (both clips coincide). -/
def exCoincidentEq : ConnInputs :=
  ⟨⟨-5, -5, 10, 10⟩, ⟨0, 0⟩, ⟨-5, -5, 10, 10⟩, ⟨0, 0⟩, none, none, none⟩

/-- All four square roots of the `exCoincidentEq` call are zero. -/
def exCoincidentEqSq : SqrtIn := ⟨0, 0, 0, 0⟩

/-- A representative pre-move `d` attribute as the external renderer
emits it (a multi-segment cubic path, never of the router's two-command
form). -/
def exOriginalD : String := "M0,0 C10,10 20,10 30,0"

/-- A rendered `Animal` node used for the Connection Index claims. -/
def exAnimalNode : SvgNode := ⟨"classId_Animal_1", ⟨0, 0, 100, 50⟩, 0, 0, 0⟩

/-- A rendered `Dog` node used for the Connection Index claims. -/
def exDogNode : SvgNode := ⟨"classId_Dog_2", ⟨200, 0, 100, 50⟩, 0, 0, 1⟩

/-- Nodes of the concrete render used for the Connection Index claims. -/
def exNodes : List SvgNode := [exAnimalNode, exDogNode]

/-- An edge whose id resolves against `exNodes` (`Animal` → `Dog`). -/
def exGoodEdge : SvgEdge := ⟨"id_Animal_Dog_1", "M1,2 C3,4 5,6 7,8", none, some "url(#x)", 10⟩

/-- An edge whose target name (`Cat`) resolves against no rendered node. -/
def exBadEdge : SvgEdge := ⟨"id_Animal_Cat_2", "M0,0 C1,1 2,2 3,3", none, none, 11⟩

/-- The edges of the concrete render. -/
def exEdges : List SvgEdge := [exGoodEdge, exBadEdge]

/-- The connection that `analyzeEdges` builds for `exGoodEdge`. -/
def exGoodConn : Connection :=
  { edge := exGoodEdge
    source := exAnimalNode
    target := exDogNode
    label := none
    originalD := exGoodEdge.d
    markerStart := exGoodEdge.markerStart
    markerEnd := exGoodEdge.markerEnd
    initialSourcePos := nodeCenterOf exAnimalNode
    initialTargetPos := nodeCenterOf exDogNode }

/-- The browser regex engine's result on the attribute strings this
development feeds it: against
`/translate\(\s*([^,)]+)(?:,\s*([^)]+))?\)/`, the string
`"translate(Infinity,0)"` matches with capture groups
`("Infinity", "0")` (hand-checked against the pattern); other strings
used here do not contain `translate(`. -/
def exRegexMatch : String → Option (String × Option String) :=
  fun s => if s = "translate(Infinity,0)" then some ("Infinity", some "0") else none

/-- ECMA-262 `parseFloat` on the strings this example feeds it:
`parseFloat("Infinity")` is positive infinity and `parseFloat("0")` is
`0`; anything else here would be `NaN`. -/
def exParseFloat : String → JsNum :=
  fun s => if s = "Infinity" then .posInf else if s = "0" then .fin 0 else .nan

/-! ## Helper lemmas -/

theorem updMin_eq_none_iff (b c : Option (ℚ × Point)) :
    updMin b c = none ↔ b = none ∧ c = none := by
  rcases b with _ | ⟨t0, p0⟩ <;> rcases c with _ | ⟨t, p⟩
  · simp [updMin]
  · simp [updMin]
  · simp [updMin]
  · simp only [updMin]
    split_ifs <;> simp

theorem updMin_eq_or (b c : Option (ℚ × Point)) :
    updMin b c = b ∨ updMin b c = c := by
  rcases b with _ | ⟨t0, p0⟩ <;> rcases c with _ | ⟨t, p⟩
  · exact Or.inl rfl
  · exact Or.inr rfl
  · exact Or.inl rfl
  · by_cases h : t < t0
    · exact Or.inr (by simp [updMin, h])
    · exact Or.inl (by simp [updMin, h])

/-- A `some` result of the inside-candidate minimum comes from one of the
four candidates. -/
theorem insideBest_cases (rect : Rect) (fromX fromY dx dy : ℚ) (v : ℚ × Point)
    (h : insideBest rect fromX fromY dx dy = some v) :
    candLeftInside rect fromX fromY dx dy = some v ∨
    candRightInside rect fromX fromY dx dy = some v ∨
    candTopInside rect fromX fromY dx dy = some v ∨
    candBottomInside rect fromX fromY dx dy = some v := by
  unfold insideBest at h
  rcases updMin_eq_or
      (updMin (updMin (updMin none (candLeftInside rect fromX fromY dx dy))
        (candRightInside rect fromX fromY dx dy)) (candTopInside rect fromX fromY dx dy))
      (candBottomInside rect fromX fromY dx dy) with h1 | h1
  · rw [h1] at h
    rcases updMin_eq_or
        (updMin (updMin none (candLeftInside rect fromX fromY dx dy))
          (candRightInside rect fromX fromY dx dy))
        (candTopInside rect fromX fromY dx dy) with h2 | h2
    · rw [h2] at h
      rcases updMin_eq_or
          (updMin none (candLeftInside rect fromX fromY dx dy))
          (candRightInside rect fromX fromY dx dy) with h3 | h3
      · rw [h3] at h
        simp only [updMin] at h
        exact Or.inl h
      · rw [h3] at h
        exact Or.inr (Or.inl h)
    · rw [h2] at h
      exact Or.inr (Or.inr (Or.inl h))
  · rw [h1] at h
    exact Or.inr (Or.inr (Or.inr h))

/-- Same fact for the outside-candidate minimum. -/
theorem outsideBest_cases (rect : Rect) (fromX fromY dx dy : ℚ) (v : ℚ × Point)
    (h : outsideBest rect fromX fromY dx dy = some v) :
    candLeftOutside rect fromX fromY dx dy = some v ∨
    candRightOutside rect fromX fromY dx dy = some v ∨
    candTopOutside rect fromX fromY dx dy = some v ∨
    candBottomOutside rect fromX fromY dx dy = some v := by
  unfold outsideBest at h
  rcases updMin_eq_or
      (updMin (updMin (updMin none (candLeftOutside rect fromX fromY dx dy))
        (candRightOutside rect fromX fromY dx dy)) (candTopOutside rect fromX fromY dx dy))
      (candBottomOutside rect fromX fromY dx dy) with h1 | h1
  · rw [h1] at h
    rcases updMin_eq_or
        (updMin (updMin none (candLeftOutside rect fromX fromY dx dy))
          (candRightOutside rect fromX fromY dx dy))
        (candTopOutside rect fromX fromY dx dy) with h2 | h2
    · rw [h2] at h
      rcases updMin_eq_or
          (updMin none (candLeftOutside rect fromX fromY dx dy))
          (candRightOutside rect fromX fromY dx dy) with h3 | h3
      · rw [h3] at h
        simp only [updMin] at h
        exact Or.inl h
      · rw [h3] at h
        exact Or.inr (Or.inl h)
    · rw [h2] at h
      exact Or.inr (Or.inr (Or.inl h))
  · rw [h1] at h
    exact Or.inr (Or.inr (Or.inr h))

/-- What any successful left inside-candidate guarantees when the ray
origin is strictly inside the rectangle. -/
theorem candLeftInside_sound {rect : Rect} {fromX fromY dx dy t : ℚ} {p : Point}
    (h1 : rect.left < fromX) (h2 : fromX < rect.right)
    (h3 : rect.top < fromY) (h4 : fromY < rect.bottom)
    (hc : candLeftInside rect fromX fromY dx dy = some (t, p)) :
    (p.x = rect.left ∨ p.x = rect.right ∨ p.y = rect.top ∨ p.y = rect.bottom) ∧
    rect.left ≤ p.x ∧ p.x ≤ rect.right ∧ rect.top ≤ p.y ∧ p.y ≤ rect.bottom ∧
    0 < (p.x - fromX) * dx + (p.y - fromY) * dy := by
  simp only [candLeftInside] at hc
  split_ifs at hc with hdx hy
  · simp only [Option.some.injEq, Prod.mk.injEq] at hc
    obtain ⟨-, rfl⟩ := hc
    have hpos : 0 < (rect.left - fromX) / dx :=
      div_pos_of_neg_of_neg (by linarith) hdx
    have hmul : (rect.left - fromX) / dx * dx = rect.left - fromX :=
      div_mul_cancel₀ _ (ne_of_lt hdx)
    refine ⟨Or.inl rfl, le_refl _, (h1.trans h2).le, hy.1, hy.2, ?_⟩
    have hdy2 : 0 ≤ (rect.left - fromX) / dx * dy * dy := by
      have := mul_nonneg hpos.le (mul_self_nonneg dy)
      linarith [this, (by ring : (rect.left - fromX) / dx * (dy * dy) =
        (rect.left - fromX) / dx * dy * dy)]
    have hdx2 : 0 < (rect.left - fromX) * dx :=
      mul_pos_of_neg_of_neg (by linarith) hdx
    simp only [Point.mk.injEq]
    nlinarith [hdy2, hdx2]

/-- Right inside-candidate soundness. -/
theorem candRightInside_sound {rect : Rect} {fromX fromY dx dy t : ℚ} {p : Point}
    (h1 : rect.left < fromX) (h2 : fromX < rect.right)
    (h3 : rect.top < fromY) (h4 : fromY < rect.bottom)
    (hc : candRightInside rect fromX fromY dx dy = some (t, p)) :
    (p.x = rect.left ∨ p.x = rect.right ∨ p.y = rect.top ∨ p.y = rect.bottom) ∧
    rect.left ≤ p.x ∧ p.x ≤ rect.right ∧ rect.top ≤ p.y ∧ p.y ≤ rect.bottom ∧
    0 < (p.x - fromX) * dx + (p.y - fromY) * dy := by
  simp only [candRightInside] at hc
  split_ifs at hc with hdx hy
  · simp only [Option.some.injEq, Prod.mk.injEq] at hc
    obtain ⟨-, rfl⟩ := hc
    have hpos : 0 < (rect.right - fromX) / dx := div_pos (by linarith) hdx
    have hmul : (rect.right - fromX) / dx * dx = rect.right - fromX :=
      div_mul_cancel₀ _ (ne_of_gt hdx)
    refine ⟨Or.inr (Or.inl rfl), (h1.trans h2).le, le_refl _, hy.1, hy.2, ?_⟩
    have hdy2 : 0 ≤ (rect.right - fromX) / dx * dy * dy := by
      have := mul_nonneg hpos.le (mul_self_nonneg dy)
      linarith [this, (by ring : (rect.right - fromX) / dx * (dy * dy) =
        (rect.right - fromX) / dx * dy * dy)]
    have hdx2 : 0 < (rect.right - fromX) * dx := mul_pos (by linarith) hdx
    simp only [Point.mk.injEq]
    nlinarith [hdy2, hdx2]

/-- Top inside-candidate soundness. -/
theorem candTopInside_sound {rect : Rect} {fromX fromY dx dy t : ℚ} {p : Point}
    (h1 : rect.left < fromX) (h2 : fromX < rect.right)
    (h3 : rect.top < fromY) (h4 : fromY < rect.bottom)
    (hc : candTopInside rect fromX fromY dx dy = some (t, p)) :
    (p.x = rect.left ∨ p.x = rect.right ∨ p.y = rect.top ∨ p.y = rect.bottom) ∧
    rect.left ≤ p.x ∧ p.x ≤ rect.right ∧ rect.top ≤ p.y ∧ p.y ≤ rect.bottom ∧
    0 < (p.x - fromX) * dx + (p.y - fromY) * dy := by
  simp only [candTopInside] at hc
  split_ifs at hc with hdy hx
  · simp only [Option.some.injEq, Prod.mk.injEq] at hc
    obtain ⟨-, rfl⟩ := hc
    have hpos : 0 < (rect.top - fromY) / dy :=
      div_pos_of_neg_of_neg (by linarith) hdy
    have hmul : (rect.top - fromY) / dy * dy = rect.top - fromY :=
      div_mul_cancel₀ _ (ne_of_lt hdy)
    refine ⟨Or.inr (Or.inr (Or.inl rfl)), hx.1, hx.2, le_refl _, (h3.trans h4).le, ?_⟩
    have hdx2 : 0 ≤ (rect.top - fromY) / dy * dx * dx := by
      have := mul_nonneg hpos.le (mul_self_nonneg dx)
      linarith [this, (by ring : (rect.top - fromY) / dy * (dx * dx) =
        (rect.top - fromY) / dy * dx * dx)]
    have hdy2 : 0 < (rect.top - fromY) * dy :=
      mul_pos_of_neg_of_neg (by linarith) hdy
    simp only [Point.mk.injEq]
    nlinarith [hdx2, hdy2]

/-- Bottom inside-candidate soundness. -/
theorem candBottomInside_sound {rect : Rect} {fromX fromY dx dy t : ℚ} {p : Point}
    (h1 : rect.left < fromX) (h2 : fromX < rect.right)
    (h3 : rect.top < fromY) (h4 : fromY < rect.bottom)
    (hc : candBottomInside rect fromX fromY dx dy = some (t, p)) :
    (p.x = rect.left ∨ p.x = rect.right ∨ p.y = rect.top ∨ p.y = rect.bottom) ∧
    rect.left ≤ p.x ∧ p.x ≤ rect.right ∧ rect.top ≤ p.y ∧ p.y ≤ rect.bottom ∧
    0 < (p.x - fromX) * dx + (p.y - fromY) * dy := by
  simp only [candBottomInside] at hc
  split_ifs at hc with hdy hx
  · simp only [Option.some.injEq, Prod.mk.injEq] at hc
    obtain ⟨-, rfl⟩ := hc
    have hpos : 0 < (rect.bottom - fromY) / dy := div_pos (by linarith) hdy
    have hmul : (rect.bottom - fromY) / dy * dy = rect.bottom - fromY :=
      div_mul_cancel₀ _ (ne_of_gt hdy)
    refine ⟨Or.inr (Or.inr (Or.inr rfl)), hx.1, hx.2, (h3.trans h4).le, le_refl _, ?_⟩
    have hdx2 : 0 ≤ (rect.bottom - fromY) / dy * dx * dx := by
      have := mul_nonneg hpos.le (mul_self_nonneg dx)
      linarith [this, (by ring : (rect.bottom - fromY) / dy * (dx * dx) =
        (rect.bottom - fromY) / dy * dx * dx)]
    have hdy2 : 0 < (rect.bottom - fromY) * dy := mul_pos (by linarith) hdy
    simp only [Point.mk.injEq]
    nlinarith [hdx2, hdy2]

/-- From a strictly interior origin with a nonzero direction, the ray
always crosses one of the four edges, so the inside scan cannot come back
empty. -/
theorem insideBest_ne_none (rect : Rect) (fromX fromY dx dy : ℚ)
    (h1 : rect.left < fromX) (h2 : fromX < rect.right)
    (h3 : rect.top < fromY) (h4 : fromY < rect.bottom)
    (hd : dx ≠ 0 ∨ dy ≠ 0) :
    insideBest rect fromX fromY dx dy ≠ none := by
  intro hn
  unfold insideBest at hn
  rw [updMin_eq_none_iff] at hn
  obtain ⟨hn, hB⟩ := hn
  rw [updMin_eq_none_iff] at hn
  obtain ⟨hn, hT⟩ := hn
  rw [updMin_eq_none_iff] at hn
  obtain ⟨hn, hR⟩ := hn
  rw [updMin_eq_none_iff] at hn
  obtain ⟨-, hL⟩ := hn
  rcases lt_trichotomy dx 0 with hdx | hdx | hdx
  · -- the ray goes left; the left-edge candidate failed its range check
    simp only [candLeftInside, if_pos hdx, ite_eq_right_iff] at hL
    replace hL : ¬(rect.top ≤ fromY + (rect.left - fromX) / dx * dy ∧
        fromY + (rect.left - fromX) / dx * dy ≤ rect.bottom) := fun hc => by
      simpa using hL hc
    push_neg at hL
    have htl : (rect.left - fromX) / dx * dx = rect.left - fromX :=
      div_mul_cancel₀ _ (ne_of_lt hdx)
    have htlpos : 0 < (rect.left - fromX) / dx :=
      div_pos_of_neg_of_neg (by linarith) hdx
    rcases lt_trichotomy dy 0 with hdy | hdy | hdy
    · -- going up-left: the exit must be through the top edge
      have httpos : 0 < (rect.top - fromY) / dy :=
        div_pos_of_neg_of_neg (by linarith) hdy
      have htt : (rect.top - fromY) / dy * dy = rect.top - fromY :=
        div_mul_cancel₀ _ (ne_of_lt hdy)
      -- the left candidate's y lies below `bottom`, so its failure means y < top
      have hylt : fromY + (rect.left - fromX) / dx * dy < rect.top := by
        by_contra hcon
        push_neg at hcon
        have hybig := hL hcon
        nlinarith [mul_neg_of_pos_of_neg htlpos hdy]
      -- hence tt < tl, and the top candidate's x is strictly inside [left, right]
      have h5 : (rect.top - fromY) / dy < (rect.left - fromX) / dx := by
        by_contra hcon
        push_neg at hcon
        have := mul_le_mul_of_nonpos_right hcon (le_of_lt hdy)
        nlinarith [htt]
      have h6 : rect.left < fromX + (rect.top - fromY) / dy * dx := by
        nlinarith [mul_pos (sub_pos.mpr h5) (neg_pos.mpr hdx)]
      have h7 : fromX + (rect.top - fromY) / dy * dx < rect.right := by
        nlinarith [mul_neg_of_pos_of_neg httpos hdx]
      simp only [candTopInside, if_pos hdy, ite_eq_right_iff] at hT
      exact absurd (hT ⟨h6.le, h7.le⟩) (by simp)
    · -- horizontal ray to the left: the left candidate itself succeeds
      have hcon : rect.bottom < fromY + (rect.left - fromX) / dx * dy := by
        apply hL
        rw [hdy]
        nlinarith
      rw [hdy] at hcon
      nlinarith
    · -- going down-left: by symmetry through the bottom edge
      have htbpos : 0 < (rect.bottom - fromY) / dy := div_pos (by linarith) hdy
      have htb : (rect.bottom - fromY) / dy * dy = rect.bottom - fromY :=
        div_mul_cancel₀ _ (ne_of_gt hdy)
      have hylt : rect.bottom < fromY + (rect.left - fromX) / dx * dy := by
        have hyge : rect.top ≤ fromY + (rect.left - fromX) / dx * dy := by
          nlinarith [mul_pos htlpos hdy]
        exact hL hyge
      have h5 : (rect.bottom - fromY) / dy < (rect.left - fromX) / dx := by
        by_contra hcon
        push_neg at hcon
        have := mul_le_mul_of_nonneg_right hcon (le_of_lt hdy)
        nlinarith [htb]
      have h6 : rect.left < fromX + (rect.bottom - fromY) / dy * dx := by
        nlinarith [mul_pos (sub_pos.mpr h5) (neg_pos.mpr hdx)]
      have h7 : fromX + (rect.bottom - fromY) / dy * dx < rect.right := by
        nlinarith [mul_neg_of_pos_of_neg htbpos hdx]
      simp only [candBottomInside, if_pos hdy, ite_eq_right_iff] at hB
      exact absurd (hB ⟨h6.le, h7.le⟩) (by simp)
  · -- vertical ray: the top or bottom candidate succeeds at x = fromX
    subst hdx
    rcases hd with hd | hd
    · exact absurd rfl hd
    rcases lt_or_gt_of_ne hd with hdy | hdy
    · simp only [candTopInside, if_pos hdy, ite_eq_right_iff] at hT
      have : rect.left ≤ fromX + (rect.top - fromY) / dy * 0 ∧
          fromX + (rect.top - fromY) / dy * 0 ≤ rect.right := by
        constructor <;> nlinarith
      exact absurd (hT this) (by simp)
    · simp only [candBottomInside, if_pos hdy, ite_eq_right_iff] at hB
      have : rect.left ≤ fromX + (rect.bottom - fromY) / dy * 0 ∧
          fromX + (rect.bottom - fromY) / dy * 0 ≤ rect.right := by
        constructor <;> nlinarith
      exact absurd (hB this) (by simp)
  · -- the ray goes right; mirror of the first case
    simp only [candRightInside, gt_iff_lt, if_pos hdx, ite_eq_right_iff] at hR
    replace hR : ¬(rect.top ≤ fromY + (rect.right - fromX) / dx * dy ∧
        fromY + (rect.right - fromX) / dx * dy ≤ rect.bottom) := fun hc => by
      simpa using hR hc
    push_neg at hR
    have htr : (rect.right - fromX) / dx * dx = rect.right - fromX :=
      div_mul_cancel₀ _ (ne_of_gt hdx)
    have htrpos : 0 < (rect.right - fromX) / dx := div_pos (by linarith) hdx
    rcases lt_trichotomy dy 0 with hdy | hdy | hdy
    · have httpos : 0 < (rect.top - fromY) / dy :=
        div_pos_of_neg_of_neg (by linarith) hdy
      have htt : (rect.top - fromY) / dy * dy = rect.top - fromY :=
        div_mul_cancel₀ _ (ne_of_lt hdy)
      have hylt : fromY + (rect.right - fromX) / dx * dy < rect.top := by
        by_contra hcon
        push_neg at hcon
        have hybig := hR hcon
        nlinarith [mul_neg_of_pos_of_neg htrpos hdy]
      have h5 : (rect.top - fromY) / dy < (rect.right - fromX) / dx := by
        by_contra hcon
        push_neg at hcon
        have := mul_le_mul_of_nonpos_right hcon (le_of_lt hdy)
        nlinarith [htt]
      have h6 : fromX + (rect.top - fromY) / dy * dx < rect.right := by
        nlinarith [mul_pos (sub_pos.mpr h5) hdx]
      have h7 : rect.left < fromX + (rect.top - fromY) / dy * dx := by
        nlinarith [mul_pos httpos hdx]
      simp only [candTopInside, if_pos hdy, ite_eq_right_iff] at hT
      exact absurd (hT ⟨h7.le, h6.le⟩) (by simp)
    · have hcon : rect.bottom < fromY + (rect.right - fromX) / dx * dy := by
        apply hR
        rw [hdy]
        nlinarith
      rw [hdy] at hcon
      nlinarith
    · have htbpos : 0 < (rect.bottom - fromY) / dy := div_pos (by linarith) hdy
      have htb : (rect.bottom - fromY) / dy * dy = rect.bottom - fromY :=
        div_mul_cancel₀ _ (ne_of_gt hdy)
      have hylt : rect.bottom < fromY + (rect.right - fromX) / dx * dy := by
        have hyge : rect.top ≤ fromY + (rect.right - fromX) / dx * dy := by
          nlinarith [mul_pos htrpos hdy]
        exact hR hyge
      have h5 : (rect.bottom - fromY) / dy < (rect.right - fromX) / dx := by
        by_contra hcon
        push_neg at hcon
        have := mul_le_mul_of_nonneg_right hcon (le_of_lt hdy)
        nlinarith [htb]
      have h6 : fromX + (rect.bottom - fromY) / dy * dx < rect.right := by
        nlinarith [mul_pos (sub_pos.mpr h5) hdx]
      have h7 : rect.left < fromX + (rect.bottom - fromY) / dy * dx := by
        nlinarith [mul_pos htbpos hdx]
      simp only [candBottomInside, if_pos hdy, ite_eq_right_iff] at hB
      exact absurd (hB ⟨h7.le, h6.le⟩) (by simp)

/-- Two `Math.sqrt` parameters with the same square and both nonnegative
agree. -/
theorem sqrtParam_unique {a b : ℚ} (ha : 0 ≤ a) (hb : 0 ≤ b) (h : a ^ 2 = b ^ 2) :
    a = b := by
  have h1 : a ≤ b := by nlinarith
  have h2 : b ≤ a := by nlinarith
  exact le_antisymm h1 h2

/-- The chosen perpendicular has the same squared norm as the segment. -/
theorem perpVec_normSq (dx dy : ℚ) :
    (perpVec dx dy).x ^ 2 + (perpVec dx dy).y ^ 2 = dx ^ 2 + dy ^ 2 := by
  unfold perpVec
  split_ifs <;> simp <;> ring

/-- The chosen perpendicular is orthogonal to the segment. -/
theorem perpVec_dot (dx dy : ℚ) :
    (perpVec dx dy).x * dx + (perpVec dx dy).y * dy = 0 := by
  unfold perpVec
  split_ifs <;> simp <;> ring

/-- `perpLength` coincides with `length` (both are square roots of
`dx² + dy²`). -/
theorem perpLen_eq_length {g : ConnInputs} {sq : SqrtIn}
    (hlen : lenValid g sq) (hperp : perpValid g sq) : sq.perpLen = sq.length := by
  refine sqrtParam_unique hperp.1 hlen.1 ?_
  rw [hperp.2, hlen.2, perpVec_normSq]

/-- The normalised perpendicular is a unit vector whenever `perpLen ≠ 0`
is the true length of the perpendicular. -/
theorem normPerp_normSq {dx dy L : ℚ} (hL : L ≠ 0)
    (hv : L ^ 2 = (perpVec dx dy).x ^ 2 + (perpVec dx dy).y ^ 2) :
    (normPerp dx dy L).x ^ 2 + (normPerp dx dy L).y ^ 2 = 1 := by
  unfold normPerp
  rw [if_neg hL]
  have hL2 : L ^ 2 ≠ 0 := pow_ne_zero _ hL
  field_simp
  linarith [hv]

/-- The clipped start point of the `exCurved` configuration. -/
theorem exCurved_pathStart : pathStart0 exCurved = ⟨0, 0⟩ := by
  norm_num [pathStart0, exCurved, sourceRect, sourceCenter, targetCenter, getNodeRect,
    getNodeCenterPosition, findIntersection, insideBest, candLeftInside, candRightInside,
    candTopInside, candBottomInside, updMin]

/-- The clipped end point of the `exCurved` configuration. -/
theorem exCurved_pathEnd : pathEnd0 exCurved = ⟨40/3, 0⟩ := by
  norm_num [pathEnd0, exCurved, targetRect, sourceCenter, targetCenter, getNodeRect,
    getNodeCenterPosition, findIntersection, insideBest, candLeftInside, candRightInside,
    candTopInside, candBottomInside, updMin]

/-- The control point of the `exCurved` configuration. -/
theorem exCurved_control : controlPoint exCurved exCurvedSq = ⟨20/3, 5⟩ := by
  simp only [controlPoint, midPoint0, segDx, segDy, exCurved_pathStart, exCurved_pathEnd]
  norm_num [normPerp, perpVec, useStandardPerp, curveOffset, exCurvedSq]

/-- `exCurvedSq.length` is the true clipped-segment length. -/
theorem exCurved_lenValid : lenValid exCurved exCurvedSq := by
  constructor
  · norm_num [exCurvedSq]
  · simp only [segDx, segDy, exCurved_pathStart, exCurved_pathEnd]
    norm_num [exCurvedSq]

/-- `exCurvedSq.perpLen` is the true perpendicular length. -/
theorem exCurved_perpValid : perpValid exCurved exCurvedSq := by
  constructor
  · norm_num [exCurvedSq]
  · simp only [segDx, segDy, exCurved_pathStart, exCurved_pathEnd]
    norm_num [perpVec, useStandardPerp, exCurvedSq]

/-- `exCurvedSq`'s start→control and control→end distances are true. -/
theorem exCurved_ctrlValid : ctrlValid exCurved exCurvedSq := by
  constructor <;> constructor
  · norm_num [exCurvedSq]
  · simp only [exCurved_control, exCurved_pathStart]
    norm_num [exCurvedSq]
  · norm_num [exCurvedSq]
  · simp only [exCurved_control, exCurved_pathEnd]
    norm_num [exCurvedSq]

/-! ## Claims -/

/-- C1: For every rectangle R, every point P strictly inside R, and every
nonzero direction vector toward a target point,
`findIntersection(R, P, target)` returns a point that lies exactly on R's
boundary (within floating tolerance — here exactly, over ℚ) and lies in
the half-plane indicated by the direction from P toward the target (the
returned point has a strictly positive scalar product with the direction
vector, measured from P). -/
theorem c1_findIntersection_inside (rect : Rect) (fromX fromY toX toY : ℚ)
    (h1 : rect.left < fromX) (h2 : fromX < rect.right)
    (h3 : rect.top < fromY) (h4 : fromY < rect.bottom)
    (hd : toX ≠ fromX ∨ toY ≠ fromY) :
    ((findIntersection rect fromX fromY toX toY).x = rect.left ∨
      (findIntersection rect fromX fromY toX toY).x = rect.right ∨
      (findIntersection rect fromX fromY toX toY).y = rect.top ∨
      (findIntersection rect fromX fromY toX toY).y = rect.bottom) ∧
    rect.left ≤ (findIntersection rect fromX fromY toX toY).x ∧
    (findIntersection rect fromX fromY toX toY).x ≤ rect.right ∧
    rect.top ≤ (findIntersection rect fromX fromY toX toY).y ∧
    (findIntersection rect fromX fromY toX toY).y ≤ rect.bottom ∧
    0 < ((findIntersection rect fromX fromY toX toY).x - fromX) * (toX - fromX) +
        ((findIntersection rect fromX fromY toX toY).y - fromY) * (toY - fromY) := by
  have hdxy : toX - fromX ≠ 0 ∨ toY - fromY ≠ 0 := by
    rcases hd with h | h
    · exact Or.inl (sub_ne_zero.mpr h)
    · exact Or.inr (sub_ne_zero.mpr h)
  have hne := insideBest_ne_none rect fromX fromY (toX - fromX) (toY - fromY)
    h1 h2 h3 h4 hdxy
  obtain ⟨⟨t, p⟩, hp⟩ := Option.ne_none_iff_exists'.mp hne
  have hfi : findIntersection rect fromX fromY toX toY = p := by
    unfold findIntersection
    dsimp only
    rw [if_pos ⟨h1.le, h2.le, h3.le, h4.le⟩, hp]
  rw [hfi]
  rcases insideBest_cases rect fromX fromY (toX - fromX) (toY - fromY) (t, p) hp
      with hc | hc | hc | hc
  · exact candLeftInside_sound h1 h2 h3 h4 hc
  · exact candRightInside_sound h1 h2 h3 h4 hc
  · exact candTopInside_sound h1 h2 h3 h4 hc
  · exact candBottomInside_sound h1 h2 h3 h4 hc

/-- Witness for C1 at Scenario A: the center (50, 25) of the Animal
rectangle, aimed at Dog's center (250, 25), clips to (100, 25) on the
right edge. -/
theorem c1_findIntersection_inside_witness :
    ((0 : ℚ) < 50 ∧ (50 : ℚ) < 100 ∧ (0 : ℚ) < 25 ∧ (25 : ℚ) < 50) ∧
    (((findIntersection ⟨0, 0, 100, 50, 50, 25, 0, 100, 0, 50⟩ 50 25 250 25).x = 0 ∨
      (findIntersection ⟨0, 0, 100, 50, 50, 25, 0, 100, 0, 50⟩ 50 25 250 25).x = 100 ∨
      (findIntersection ⟨0, 0, 100, 50, 50, 25, 0, 100, 0, 50⟩ 50 25 250 25).y = 0 ∨
      (findIntersection ⟨0, 0, 100, 50, 50, 25, 0, 100, 0, 50⟩ 50 25 250 25).y = 50) ∧
    (0 : ℚ) ≤ (findIntersection ⟨0, 0, 100, 50, 50, 25, 0, 100, 0, 50⟩ 50 25 250 25).x ∧
    (findIntersection ⟨0, 0, 100, 50, 50, 25, 0, 100, 0, 50⟩ 50 25 250 25).x ≤ 100 ∧
    (0 : ℚ) ≤ (findIntersection ⟨0, 0, 100, 50, 50, 25, 0, 100, 0, 50⟩ 50 25 250 25).y ∧
    (findIntersection ⟨0, 0, 100, 50, 50, 25, 0, 100, 0, 50⟩ 50 25 250 25).y ≤ 50 ∧
    0 < ((findIntersection ⟨0, 0, 100, 50, 50, 25, 0, 100, 0, 50⟩ 50 25 250 25).x - 50) *
          (250 - 50) +
        ((findIntersection ⟨0, 0, 100, 50, 50, 25, 0, 100, 0, 50⟩ 50 25 250 25).y - 25) *
          (25 - 25)) :=
  ⟨by norm_num,
   c1_findIntersection_inside ⟨0, 0, 100, 50, 50, 25, 0, 100, 0, 50⟩ 50 25 250 25
     (by norm_num) (by norm_num) (by norm_num) (by norm_num) (by norm_num)⟩

/-- C8 counterexample: for the unit-style rectangle `[0,10] × [0,10]` and
the strictly outside point `(3, 20)` with degenerate direction, the code
returns `(0, 10)` (it clamps onto the *left* edge, whose coordinate line
is nearest by single-axis distance), while the clamped projection onto the
nearest *side* of the rectangle is `(3, 10)` on the bottom side. -/
theorem c8_counterexample :
    findIntersection ⟨0, 0, 10, 10, 5, 5, 0, 10, 0, 10⟩ 3 20 3 20 = ⟨0, 10⟩ ∧
    specNearestSideProjection ⟨0, 0, 10, 10, 5, 5, 0, 10, 0, 10⟩ 3 20 = ⟨3, 10⟩ ∧
    findIntersection ⟨0, 0, 10, 10, 5, 5, 0, 10, 0, 10⟩ 3 20 3 20 ≠
      specNearestSideProjection ⟨0, 0, 10, 10, 5, 5, 0, 10, 0, 10⟩ 3 20 ∧
    ¬((0 : ℚ) ≤ 3 ∧ (3 : ℚ) ≤ 10 ∧ (0 : ℚ) ≤ 20 ∧ (20 : ℚ) ≤ 10) := by
  have h1 : findIntersection ⟨0, 0, 10, 10, 5, 5, 0, 10, 0, 10⟩ 3 20 3 20 = ⟨0, 10⟩ := by
    norm_num [findIntersection, outsideBest, insideBest, candLeftOutside, candRightOutside,
      candTopOutside, candBottomOutside, candLeftInside, candRightInside, candTopInside,
      candBottomInside, updMin, nearestEdgeFallback]
  have h2 : specNearestSideProjection ⟨0, 0, 10, 10, 5, 5, 0, 10, 0, 10⟩ 3 20 = ⟨3, 10⟩ := by
    norm_num [specNearestSideProjection]
  refine ⟨h1, h2, ?_, by norm_num⟩
  rw [h1, h2]
  simp [Point.mk.injEq]

/-- C8 amended: for every rectangle and every point strictly outside it,
`findIntersection` with a degenerate direction (target = origin) does not
throw and returns the deterministic fallback on the rectangle's perimeter:
the point clamped onto the edge whose coordinate *line* is nearest by
single-axis distance (ties in the order left, right, top, bottom) — which
need not be the nearest side as a segment. -/
theorem c8_amended (rect : Rect) (px py : ℚ)
    (hwf1 : rect.left ≤ rect.right) (hwf2 : rect.top ≤ rect.bottom)
    (hout : ¬(rect.left ≤ px ∧ px ≤ rect.right ∧ rect.top ≤ py ∧ py ≤ rect.bottom)) :
    findIntersection rect px py px py = nearestEdgeFallback rect px py ∧
    (((nearestEdgeFallback rect px py).x = rect.left ∨
        (nearestEdgeFallback rect px py).x = rect.right) ∧
      rect.top ≤ (nearestEdgeFallback rect px py).y ∧
      (nearestEdgeFallback rect px py).y ≤ rect.bottom ∨
     ((nearestEdgeFallback rect px py).y = rect.top ∨
        (nearestEdgeFallback rect px py).y = rect.bottom) ∧
      rect.left ≤ (nearestEdgeFallback rect px py).x ∧
      (nearestEdgeFallback rect px py).x ≤ rect.right) ∧
    (|rect.left - px| =
        min (min (min |rect.left - px| |rect.right - px|) |rect.top - py|) |rect.bottom - py| ∧
      nearestEdgeFallback rect px py = ⟨rect.left, max rect.top (min rect.bottom py)⟩ ∨
     |rect.right - px| =
        min (min (min |rect.left - px| |rect.right - px|) |rect.top - py|) |rect.bottom - py| ∧
      nearestEdgeFallback rect px py = ⟨rect.right, max rect.top (min rect.bottom py)⟩ ∨
     |rect.top - py| =
        min (min (min |rect.left - px| |rect.right - px|) |rect.top - py|) |rect.bottom - py| ∧
      nearestEdgeFallback rect px py = ⟨max rect.left (min rect.right px), rect.top⟩ ∨
     |rect.bottom - py| =
        min (min (min |rect.left - px| |rect.right - px|) |rect.top - py|) |rect.bottom - py| ∧
      nearestEdgeFallback rect px py = ⟨max rect.left (min rect.right px), rect.bottom⟩) := by
  constructor
  · unfold findIntersection
    dsimp only
    rw [if_neg hout]
    have houtside : outsideBest rect px py (px - px) (py - py) = none := by
      unfold outsideBest
      simp [candLeftOutside, candRightOutside, candTopOutside, candBottomOutside,
        updMin]
    rw [houtside]
  constructor
  · unfold nearestEdgeFallback
    dsimp only
    split_ifs
    · exact Or.inl ⟨Or.inl rfl, le_max_left _ _, max_le hwf2 (min_le_left _ _)⟩
    · exact Or.inl ⟨Or.inr rfl, le_max_left _ _, max_le hwf2 (min_le_left _ _)⟩
    · exact Or.inr ⟨Or.inl rfl, le_max_left _ _, max_le hwf1 (min_le_left _ _)⟩
    · exact Or.inr ⟨Or.inr rfl, le_max_left _ _, max_le hwf1 (min_le_left _ _)⟩
  · unfold nearestEdgeFallback
    dsimp only
    split_ifs with hc1 hc2 hc3
    · exact Or.inl ⟨hc1.symm, rfl⟩
    · exact Or.inr (Or.inl ⟨hc2.symm, rfl⟩)
    · exact Or.inr (Or.inr (Or.inl ⟨hc3.symm, rfl⟩))
    · refine Or.inr (Or.inr (Or.inr ⟨?_, rfl⟩))
      rcases min_choice (min (min |rect.left - px| |rect.right - px|) |rect.top - py|)
          |rect.bottom - py| with hm | hm
      · exfalso
        rcases min_choice (min |rect.left - px| |rect.right - px|) |rect.top - py| with
            hm2 | hm2
        · rcases min_choice |rect.left - px| |rect.right - px| with hm3 | hm3
          · exact hc1 (by rw [hm, hm2, hm3])
          · exact hc2 (by rw [hm, hm2, hm3])
        · exact hc3 (by rw [hm, hm2])
      · exact hm.symm

/-- Witness for C8 (amended) at the rectangle `[0,10] × [0,10]` and the
outside point `(3, 20)`. -/
theorem c8_amended_witness :
    ((0 : ℚ) ≤ 10 ∧ (0 : ℚ) ≤ 10 ∧
      ¬((0 : ℚ) ≤ 3 ∧ (3 : ℚ) ≤ 10 ∧ (0 : ℚ) ≤ 20 ∧ (20 : ℚ) ≤ 10)) ∧
    findIntersection ⟨0, 0, 10, 10, 5, 5, 0, 10, 0, 10⟩ 3 20 3 20 =
      nearestEdgeFallback ⟨0, 0, 10, 10, 5, 5, 0, 10, 0, 10⟩ 3 20 :=
  ⟨⟨by norm_num, by norm_num, by norm_num⟩,
   (c8_amended ⟨0, 0, 10, 10, 5, 5, 0, 10, 0, 10⟩ 3 20 (by norm_num) (by norm_num)
     (by norm_num)).1⟩

/-- C4: During a drag, the screen-space delta is converted to diagram
space using only the linear (rotation/scale) part of the inverse viewport
transform — the result is unchanged under any modification of the view
transform's translation components — and in particular a screen delta of
`(50, 0)` under a uniform 2× zoom moves the node's translation offset by
`(25, 0)`, not `(50, 0)`. -/
theorem c4_dragDelta_linear_only :
    (∀ a b c d e f e2 f2 sx sy cx cy : ℚ, ∀ init : Point,
      handleNodeMouseMove ⟨a, b, c, d, e, f⟩ sx sy cx cy init =
        handleNodeMouseMove ⟨a, b, c, d, e2, f2⟩ sx sy cx cy init) ∧
    (∀ e f : ℚ, ∀ init : Point,
      handleNodeMouseMove ⟨2, 0, 0, 2, e, f⟩ 0 0 50 0 init = ⟨init.x + 25, init.y⟩) := by
  constructor
  · intro a b c d e f e2 f2 sx sy cx cy init
    rfl
  · intro e f init
    simp only [handleNodeMouseMove, Matrix2D.inverse, Point.mk.injEq]
    norm_num

/-- C3: For every edge rendered in curved mode with a nonzero-length
clipped segment, the quadratic control point is the segment midpoint
displaced along the chosen perpendicular by exactly
`clamp(0.15 × segmentLength, 5, 50)`, so the perpendicular offset
magnitude always lies in `[5, 50]`. -/
theorem c3_curved_control_offset (g : ConnInputs) (sq : SqrtIn)
    (hlen : lenValid g sq) (hperp : perpValid g sq) (hpos : 0 < sq.length) :
    (∃ s e, (updateEdgePosition g true sq).path = .quad s (controlPoint g sq) e) ∧
    controlPoint g sq =
      ⟨(midPoint0 g).x + (normPerp (segDx g) (segDy g) sq.perpLen).x * curveOffset sq.length,
       (midPoint0 g).y + (normPerp (segDx g) (segDy g) sq.perpLen).y * curveOffset sq.length⟩ ∧
    ((controlPoint g sq).x - (midPoint0 g).x) ^ 2 +
        ((controlPoint g sq).y - (midPoint0 g).y) ^ 2 = curveOffset sq.length ^ 2 ∧
    5 ≤ curveOffset sq.length ∧ curveOffset sq.length ≤ 50 ∧
    curveOffset sq.length = max 5 (min 50 (sq.length * (3 / 20))) := by
  have hperplen : sq.perpLen = sq.length := perpLen_eq_length hlen hperp
  have hLne : sq.perpLen ≠ 0 := by rw [hperplen]; exact ne_of_gt hpos
  have hunit : (normPerp (segDx g) (segDy g) sq.perpLen).x ^ 2 +
      (normPerp (segDx g) (segDy g) sq.perpLen).y ^ 2 = 1 :=
    normPerp_normSq hLne hperp.2
  refine ⟨?_, rfl, ?_, le_max_left _ _, max_le (by norm_num) (min_le_left _ _), rfl⟩
  · refine ⟨if 10 < sq.length then curvedAdjStart g sq else pathStart0 g,
      if 10 < sq.length then curvedAdjEnd g sq else pathEnd0 g, ?_⟩
    simp only [updateEdgePosition]
    rw [if_pos ⟨trivial, hpos⟩]
  · simp only [controlPoint]
    ring_nf
    nlinarith [hunit]

/-- Witness for C3 at the `exCurved` configuration: control point
`(20/3, 5)`, offset `5` from the midpoint `(20/3, 0)`. -/
theorem c3_curved_control_offset_witness :
    (lenValid exCurved exCurvedSq ∧ perpValid exCurved exCurvedSq ∧
      0 < exCurvedSq.length) ∧
    (((controlPoint exCurved exCurvedSq).x - (midPoint0 exCurved).x) ^ 2 +
        ((controlPoint exCurved exCurvedSq).y - (midPoint0 exCurved).y) ^ 2 =
        curveOffset exCurvedSq.length ^ 2 ∧
      5 ≤ curveOffset exCurvedSq.length ∧ curveOffset exCurvedSq.length ≤ 50) :=
  ⟨⟨exCurved_lenValid, exCurved_perpValid, by norm_num [exCurvedSq]⟩,
   by
    have h := c3_curved_control_offset exCurved exCurvedSq exCurved_lenValid
      exCurved_perpValid (by norm_num [exCurvedSq])
    exact ⟨h.2.2.1, h.2.2.2.1, h.2.2.2.2.1⟩⟩

/-- The normalised perpendicular is orthogonal to the segment. -/
theorem normPerp_dot (dx dy L : ℚ) :
    (normPerp dx dy L).x * dx + (normPerp dx dy L).y * dy = 0 := by
  unfold normPerp
  split_ifs with h
  · simp
  · have hd := perpVec_dot dx dy
    field_simp
    linarith

/-- Squared distances from the clipped endpoints to the control point:
both equal `length²/4 + curveOffset²` (the perpendicular displacement is
orthogonal to the half segment). -/
theorem ctrlDistSq (g : ConnInputs) (sq : SqrtIn)
    (hlen : lenValid g sq) (hperp : perpValid g sq) (hpos : 0 < sq.length) :
    ((controlPoint g sq).x - (pathStart0 g).x) ^ 2 +
        ((controlPoint g sq).y - (pathStart0 g).y) ^ 2 =
      sq.length ^ 2 / 4 + curveOffset sq.length ^ 2 ∧
    ((pathEnd0 g).x - (controlPoint g sq).x) ^ 2 +
        ((pathEnd0 g).y - (controlPoint g sq).y) ^ 2 =
      sq.length ^ 2 / 4 + curveOffset sq.length ^ 2 := by
  have hperplen : sq.perpLen = sq.length := perpLen_eq_length hlen hperp
  have hLne : sq.perpLen ≠ 0 := by rw [hperplen]; exact ne_of_gt hpos
  have hunit : (normPerp (segDx g) (segDy g) sq.perpLen).x ^ 2 +
      (normPerp (segDx g) (segDy g) sq.perpLen).y ^ 2 = 1 :=
    normPerp_normSq hLne hperp.2
  have hdot := normPerp_dot (segDx g) (segDy g) sq.perpLen
  have hsx : (controlPoint g sq).x - (pathStart0 g).x =
      segDx g / 2 + (normPerp (segDx g) (segDy g) sq.perpLen).x * curveOffset sq.length := by
    simp only [controlPoint, midPoint0, segDx]
    ring
  have hsy : (controlPoint g sq).y - (pathStart0 g).y =
      segDy g / 2 + (normPerp (segDx g) (segDy g) sq.perpLen).y * curveOffset sq.length := by
    simp only [controlPoint, midPoint0, segDy]
    ring
  have hex : (pathEnd0 g).x - (controlPoint g sq).x =
      segDx g / 2 - (normPerp (segDx g) (segDy g) sq.perpLen).x * curveOffset sq.length := by
    simp only [controlPoint, midPoint0, segDx]
    ring
  have hey : (pathEnd0 g).y - (controlPoint g sq).y =
      segDy g / 2 - (normPerp (segDx g) (segDy g) sq.perpLen).y * curveOffset sq.length := by
    simp only [controlPoint, midPoint0, segDy]
    ring
  constructor
  · rw [hsx, hsy]
    have hexp : (segDx g / 2 +
        (normPerp (segDx g) (segDy g) sq.perpLen).x * curveOffset sq.length) ^ 2 +
        (segDy g / 2 +
          (normPerp (segDx g) (segDy g) sq.perpLen).y * curveOffset sq.length) ^ 2 =
        (segDx g ^ 2 + segDy g ^ 2) / 4 +
          ((normPerp (segDx g) (segDy g) sq.perpLen).x * segDx g +
            (normPerp (segDx g) (segDy g) sq.perpLen).y * segDy g) * curveOffset sq.length +
          ((normPerp (segDx g) (segDy g) sq.perpLen).x ^ 2 +
            (normPerp (segDx g) (segDy g) sq.perpLen).y ^ 2) * curveOffset sq.length ^ 2 := by
      ring
    rw [hexp, hdot, hunit, ← hlen.2]
    ring
  · rw [hex, hey]
    have hexp : (segDx g / 2 -
        (normPerp (segDx g) (segDy g) sq.perpLen).x * curveOffset sq.length) ^ 2 +
        (segDy g / 2 -
          (normPerp (segDx g) (segDy g) sq.perpLen).y * curveOffset sq.length) ^ 2 =
        (segDx g ^ 2 + segDy g ^ 2) / 4 -
          ((normPerp (segDx g) (segDy g) sq.perpLen).x * segDx g +
            (normPerp (segDx g) (segDy g) sq.perpLen).y * segDy g) * curveOffset sq.length +
          ((normPerp (segDx g) (segDy g) sq.perpLen).x ^ 2 +
            (normPerp (segDx g) (segDy g) sq.perpLen).y ^ 2) * curveOffset sq.length ^ 2 := by
      ring
    rw [hexp, hdot, hunit, ← hlen.2]
    ring

/-- With a positive-length segment, the start→control and control→end
distances are strictly positive. -/
theorem ctrlLens_pos (g : ConnInputs) (sq : SqrtIn)
    (hlen : lenValid g sq) (hperp : perpValid g sq) (hctrl : ctrlValid g sq)
    (hpos : 0 < sq.length) :
    0 < sq.lenStartCtrl ∧ 0 < sq.lenCtrlEnd := by
  obtain ⟨hd1, hd2⟩ := ctrlDistSq g sq hlen hperp hpos
  have hco : 5 ≤ curveOffset sq.length := le_max_left _ _
  constructor
  · have hsq : sq.lenStartCtrl ^ 2 = sq.length ^ 2 / 4 + curveOffset sq.length ^ 2 :=
      hctrl.1.2.trans hd1
    nlinarith [hctrl.1.1]
  · have hsq : sq.lenCtrlEnd ^ 2 = sq.length ^ 2 / 4 + curveOffset sq.length ^ 2 :=
      hctrl.2.2.trans hd2
    nlinarith [hctrl.2.1]

/-- The adjusted start point of the `exCurved` configuration: `(16, 12)`
(twenty units along the unit start→control direction `(4/5, 3/5)`). -/
theorem exCurved_adjStart : curvedAdjStart exCurved exCurvedSq = ⟨16, 12⟩ := by
  simp only [curvedAdjStart, exCurved_control, exCurved_pathStart]
  norm_num [exCurvedSq, hasStartArrow, exCurved, show 0 < "url(#arrowhead)".length from by decide]

/-- The adjusted end point of the `exCurved` configuration: `(28/3, 3)`. -/
theorem exCurved_adjEnd : curvedAdjEnd exCurved exCurvedSq = ⟨28/3, 3⟩ := by
  simp only [curvedAdjEnd, exCurved_control, exCurved_pathEnd]
  norm_num [exCurvedSq, hasEndArrow, exCurved]

/-- The full curved path emitted for the `exCurved` configuration. -/
theorem exCurved_path :
    (updateEdgePosition exCurved true exCurvedSq).path =
      .quad ⟨16, 12⟩ ⟨20/3, 5⟩ ⟨28/3, 3⟩ := by
  simp only [updateEdgePosition]
  rw [if_pos ⟨trivial, by norm_num [exCurvedSq]⟩]
  simp only [if_pos (show (10 : ℚ) < exCurvedSq.length by norm_num [exCurvedSq])]
  rw [exCurved_adjStart, exCurved_adjEnd, exCurved_control]

/-- C2 counterexample: in curved mode (`exCurved`, clipped segment from
`(0,0)` to `(40/3, 0)`, longer than the threshold, arrow on the start
end), the start point is pulled to `(16, 12)` — twenty units along the
start→control direction — which is *not* along the line direction: the
displacement `(16, 12)` has a nonzero cross product with the segment
direction, and differs from the point `(20, 0)` that a 20-unit pull along
the line direction would give. -/
theorem c2_counterexample :
    lenValid exCurved exCurvedSq ∧ perpValid exCurved exCurvedSq ∧
    ctrlValid exCurved exCurvedSq ∧ 10 < exCurvedSq.length ∧
    hasStartArrow exCurved = true ∧
    (updateEdgePosition exCurved true exCurvedSq).path =
      .quad ⟨16, 12⟩ ⟨20/3, 5⟩ ⟨28/3, 3⟩ ∧
    ((16 : ℚ) - (pathStart0 exCurved).x) * segDy exCurved -
      ((12 : ℚ) - (pathStart0 exCurved).y) * segDx exCurved ≠ 0 ∧
    (⟨16, 12⟩ : Point) ≠
      ⟨(pathStart0 exCurved).x + segDx exCurved / exCurvedSq.length * 20,
       (pathStart0 exCurved).y + segDy exCurved / exCurvedSq.length * 20⟩ := by
  refine ⟨exCurved_lenValid, exCurved_perpValid, exCurved_ctrlValid,
    by norm_num [exCurvedSq],
    by norm_num [hasStartArrow, exCurved, show 0 < "url(#arrowhead)".length from by decide],
    exCurved_path, ?_, ?_⟩
  · simp only [segDx, segDy, exCurved_pathStart, exCurved_pathEnd]
    norm_num
  · simp only [segDx, segDy, exCurved_pathStart, exCurved_pathEnd, Point.mk.injEq]
    norm_num [exCurvedSq]

/-- C2 amended: when the boundary-clipped endpoints are more than 10 units
apart, each endpoint is pulled inward by exactly 20 units if that end
carries an arrow marker and by 5 units otherwise — along the line
direction in straight mode, and along the start→control-point and
control-point→end directions respectively in curved mode; when the
clipped endpoints are within the threshold, no offsetting is applied in
either mode. -/
theorem c2_amended (g : ConnInputs) (sq : SqrtIn) (hlen : lenValid g sq) :
    (sq.length ≤ 10 →
      (updateEdgePosition g false sq).path = .line (pathStart0 g) (pathEnd0 g) ∧
      (0 < sq.length →
        (updateEdgePosition g true sq).path =
          .quad (pathStart0 g) (controlPoint g sq) (pathEnd0 g)) ∧
      (sq.length ≤ 0 →
        (updateEdgePosition g true sq).path = .line (pathStart0 g) (pathEnd0 g))) ∧
    (10 < sq.length →
      ∃ s e, (updateEdgePosition g false sq).path = .line s e ∧
        s.x - (pathStart0 g).x = segDx g / sq.length * (if hasStartArrow g then 20 else 5) ∧
        s.y - (pathStart0 g).y = segDy g / sq.length * (if hasStartArrow g then 20 else 5) ∧
        (s.x - (pathStart0 g).x) ^ 2 + (s.y - (pathStart0 g).y) ^ 2 =
          (if hasStartArrow g then (20 : ℚ) else 5) ^ 2 ∧
        (pathEnd0 g).x - e.x = segDx g / sq.length * (if hasEndArrow g then 20 else 5) ∧
        (pathEnd0 g).y - e.y = segDy g / sq.length * (if hasEndArrow g then 20 else 5) ∧
        ((pathEnd0 g).x - e.x) ^ 2 + ((pathEnd0 g).y - e.y) ^ 2 =
          (if hasEndArrow g then (20 : ℚ) else 5) ^ 2) ∧
    (10 < sq.length → perpValid g sq → ctrlValid g sq →
      ∃ s e, (updateEdgePosition g true sq).path = .quad s (controlPoint g sq) e ∧
        s.x - (pathStart0 g).x =
          ((controlPoint g sq).x - (pathStart0 g).x) / sq.lenStartCtrl *
            (if hasStartArrow g then 20 else 5) ∧
        s.y - (pathStart0 g).y =
          ((controlPoint g sq).y - (pathStart0 g).y) / sq.lenStartCtrl *
            (if hasStartArrow g then 20 else 5) ∧
        (s.x - (pathStart0 g).x) ^ 2 + (s.y - (pathStart0 g).y) ^ 2 =
          (if hasStartArrow g then (20 : ℚ) else 5) ^ 2 ∧
        (pathEnd0 g).x - e.x =
          ((pathEnd0 g).x - (controlPoint g sq).x) / sq.lenCtrlEnd *
            (if hasEndArrow g then 20 else 5) ∧
        (pathEnd0 g).y - e.y =
          ((pathEnd0 g).y - (controlPoint g sq).y) / sq.lenCtrlEnd *
            (if hasEndArrow g then 20 else 5) ∧
        ((pathEnd0 g).x - e.x) ^ 2 + ((pathEnd0 g).y - e.y) ^ 2 =
          (if hasEndArrow g then (20 : ℚ) else 5) ^ 2) := by
  refine ⟨?_, ?_, ?_⟩
  · intro hle
    refine ⟨?_, ?_, ?_⟩
    · simp only [updateEdgePosition]
      rw [if_neg (by simp)]
      simp only [if_neg (not_lt.mpr hle)]
    · intro hpos
      simp only [updateEdgePosition]
      rw [if_pos ⟨trivial, hpos⟩]
      simp only [if_neg (not_lt.mpr hle)]
    · intro hle0
      simp only [updateEdgePosition]
      rw [if_neg (fun hc => absurd hc.2 (not_lt.mpr hle0))]
      simp only [if_neg (not_lt.mpr hle)]
  · intro hgt
    have hL0 : sq.length ≠ 0 := by linarith
    have key : ∀ off : ℚ,
        (segDx g / sq.length * off) ^ 2 + (segDy g / sq.length * off) ^ 2 = off ^ 2 := by
      intro off
      have hx : (segDx g / sq.length * off) ^ 2 + (segDy g / sq.length * off) ^ 2 =
          (segDx g ^ 2 + segDy g ^ 2) / sq.length ^ 2 * off ^ 2 := by
        ring
      rw [hx, ← hlen.2, div_self (pow_ne_zero 2 hL0), one_mul]
    refine ⟨⟨(pathStart0 g).x + segDx g / sq.length * (if hasStartArrow g then 20 else 5),
             (pathStart0 g).y + segDy g / sq.length * (if hasStartArrow g then 20 else 5)⟩,
            ⟨(pathEnd0 g).x - segDx g / sq.length * (if hasEndArrow g then 20 else 5),
             (pathEnd0 g).y - segDy g / sq.length * (if hasEndArrow g then 20 else 5)⟩,
            ?_, by ring, by ring, ?_, by ring, by ring, ?_⟩
    · simp only [updateEdgePosition]
      rw [if_neg (by simp)]
      simp only [if_pos hgt]
    · have hsx : (pathStart0 g).x + segDx g / sq.length *
          (if hasStartArrow g then (20 : ℚ) else 5) - (pathStart0 g).x =
          segDx g / sq.length * (if hasStartArrow g then (20 : ℚ) else 5) := by ring
      have hsy : (pathStart0 g).y + segDy g / sq.length *
          (if hasStartArrow g then (20 : ℚ) else 5) - (pathStart0 g).y =
          segDy g / sq.length * (if hasStartArrow g then (20 : ℚ) else 5) := by ring
      rw [hsx, hsy]
      exact key _
    · have hex : (pathEnd0 g).x - ((pathEnd0 g).x - segDx g / sq.length *
          (if hasEndArrow g then (20 : ℚ) else 5)) =
          segDx g / sq.length * (if hasEndArrow g then (20 : ℚ) else 5) := by ring
      have hey : (pathEnd0 g).y - ((pathEnd0 g).y - segDy g / sq.length *
          (if hasEndArrow g then (20 : ℚ) else 5)) =
          segDy g / sq.length * (if hasEndArrow g then (20 : ℚ) else 5) := by ring
      rw [hex, hey]
      exact key _
  · intro hgt hperp hctrl
    have hpos : 0 < sq.length := by linarith
    obtain ⟨hSC, hCE⟩ := ctrlLens_pos g sq hlen hperp hctrl hpos
    have hSCne : sq.lenStartCtrl ≠ 0 := ne_of_gt hSC
    have hCEne : sq.lenCtrlEnd ≠ 0 := ne_of_gt hCE
    have keyS : ∀ off : ℚ,
        (((controlPoint g sq).x - (pathStart0 g).x) / sq.lenStartCtrl * off) ^ 2 +
          (((controlPoint g sq).y - (pathStart0 g).y) / sq.lenStartCtrl * off) ^ 2 =
          off ^ 2 := by
      intro off
      have hx : (((controlPoint g sq).x - (pathStart0 g).x) / sq.lenStartCtrl * off) ^ 2 +
          (((controlPoint g sq).y - (pathStart0 g).y) / sq.lenStartCtrl * off) ^ 2 =
          (((controlPoint g sq).x - (pathStart0 g).x) ^ 2 +
            ((controlPoint g sq).y - (pathStart0 g).y) ^ 2) / sq.lenStartCtrl ^ 2 *
            off ^ 2 := by
        ring
      rw [hx, ← hctrl.1.2, div_self (pow_ne_zero 2 hSCne), one_mul]
    have keyE : ∀ off : ℚ,
        (((pathEnd0 g).x - (controlPoint g sq).x) / sq.lenCtrlEnd * off) ^ 2 +
          (((pathEnd0 g).y - (controlPoint g sq).y) / sq.lenCtrlEnd * off) ^ 2 =
          off ^ 2 := by
      intro off
      have hx : (((pathEnd0 g).x - (controlPoint g sq).x) / sq.lenCtrlEnd * off) ^ 2 +
          (((pathEnd0 g).y - (controlPoint g sq).y) / sq.lenCtrlEnd * off) ^ 2 =
          (((pathEnd0 g).x - (controlPoint g sq).x) ^ 2 +
            ((pathEnd0 g).y - (controlPoint g sq).y) ^ 2) / sq.lenCtrlEnd ^ 2 *
            off ^ 2 := by
        ring
      rw [hx, ← hctrl.2.2, div_self (pow_ne_zero 2 hCEne), one_mul]
    have hadjS : curvedAdjStart g sq =
        ⟨(pathStart0 g).x + ((controlPoint g sq).x - (pathStart0 g).x) / sq.lenStartCtrl *
            (if hasStartArrow g then 20 else 5),
         (pathStart0 g).y + ((controlPoint g sq).y - (pathStart0 g).y) / sq.lenStartCtrl *
            (if hasStartArrow g then 20 else 5)⟩ := by
      simp only [curvedAdjStart, if_neg hSCne]
    have hadjE : curvedAdjEnd g sq =
        ⟨(pathEnd0 g).x - ((pathEnd0 g).x - (controlPoint g sq).x) / sq.lenCtrlEnd *
            (if hasEndArrow g then 20 else 5),
         (pathEnd0 g).y - ((pathEnd0 g).y - (controlPoint g sq).y) / sq.lenCtrlEnd *
            (if hasEndArrow g then 20 else 5)⟩ := by
      simp only [curvedAdjEnd, if_neg hCEne]
    refine ⟨curvedAdjStart g sq, curvedAdjEnd g sq, ?_, ?_, ?_, ?_, ?_, ?_, ?_⟩
    · simp only [updateEdgePosition]
      rw [if_pos ⟨trivial, hpos⟩]
      simp only [if_pos hgt]
    · rw [hadjS]; ring
    · rw [hadjS]; ring
    · rw [hadjS]
      dsimp only
      have hsx : (pathStart0 g).x + ((controlPoint g sq).x - (pathStart0 g).x) /
          sq.lenStartCtrl * (if hasStartArrow g then (20 : ℚ) else 5) - (pathStart0 g).x =
          ((controlPoint g sq).x - (pathStart0 g).x) / sq.lenStartCtrl *
            (if hasStartArrow g then (20 : ℚ) else 5) := by ring
      have hsy : (pathStart0 g).y + ((controlPoint g sq).y - (pathStart0 g).y) /
          sq.lenStartCtrl * (if hasStartArrow g then (20 : ℚ) else 5) - (pathStart0 g).y =
          ((controlPoint g sq).y - (pathStart0 g).y) / sq.lenStartCtrl *
            (if hasStartArrow g then (20 : ℚ) else 5) := by ring
      rw [hsx, hsy]
      exact keyS _
    · rw [hadjE]; ring
    · rw [hadjE]; ring
    · rw [hadjE]
      dsimp only
      have hex : (pathEnd0 g).x - ((pathEnd0 g).x - ((pathEnd0 g).x -
          (controlPoint g sq).x) / sq.lenCtrlEnd * (if hasEndArrow g then (20 : ℚ) else 5)) =
          ((pathEnd0 g).x - (controlPoint g sq).x) / sq.lenCtrlEnd *
            (if hasEndArrow g then (20 : ℚ) else 5) := by ring
      have hey : (pathEnd0 g).y - ((pathEnd0 g).y - ((pathEnd0 g).y -
          (controlPoint g sq).y) / sq.lenCtrlEnd * (if hasEndArrow g then (20 : ℚ) else 5)) =
          ((pathEnd0 g).y - (controlPoint g sq).y) / sq.lenCtrlEnd *
            (if hasEndArrow g then (20 : ℚ) else 5) := by ring
      rw [hex, hey]
      exact keyE _

/-- Witness for C2 (amended) at the `exCurved` configuration (both the
straight- and curved-mode conclusions apply: the clipped segment is
`40/3 > 10` units long). -/
theorem c2_amended_witness :
    lenValid exCurved exCurvedSq ∧
    (10 < exCurvedSq.length →
      ∃ s e, (updateEdgePosition exCurved false exCurvedSq).path = .line s e ∧
        s.x - (pathStart0 exCurved).x =
          segDx exCurved / exCurvedSq.length *
            (if hasStartArrow exCurved then 20 else 5) ∧
        s.y - (pathStart0 exCurved).y =
          segDy exCurved / exCurvedSq.length *
            (if hasStartArrow exCurved then 20 else 5) ∧
        (s.x - (pathStart0 exCurved).x) ^ 2 + (s.y - (pathStart0 exCurved).y) ^ 2 =
          (if hasStartArrow exCurved then (20 : ℚ) else 5) ^ 2 ∧
        (pathEnd0 exCurved).x - e.x =
          segDx exCurved / exCurvedSq.length * (if hasEndArrow exCurved then 20 else 5) ∧
        (pathEnd0 exCurved).y - e.y =
          segDy exCurved / exCurvedSq.length * (if hasEndArrow exCurved then 20 else 5) ∧
        ((pathEnd0 exCurved).x - e.x) ^ 2 + ((pathEnd0 exCurved).y - e.y) ^ 2 =
          (if hasEndArrow exCurved then (20 : ℚ) else 5) ^ 2) :=
  ⟨exCurved_lenValid, (c2_amended exCurved exCurvedSq exCurved_lenValid).2.1⟩

/-- The clipped start point of Scenario A: `(100, 25)` on Animal's right
edge. -/
theorem exStraight_pathStart : pathStart0 exStraight = ⟨100, 25⟩ := by
  norm_num [pathStart0, exStraight, sourceRect, sourceCenter, targetCenter, getNodeRect,
    getNodeCenterPosition, findIntersection, insideBest, candLeftInside, candRightInside,
    candTopInside, candBottomInside, updMin]

/-- The clipped end point of Scenario A: `(200, 25)` on Dog's left edge. -/
theorem exStraight_pathEnd : pathEnd0 exStraight = ⟨200, 25⟩ := by
  norm_num [pathEnd0, exStraight, targetRect, sourceCenter, targetCenter, getNodeRect,
    getNodeCenterPosition, findIntersection, insideBest, candLeftInside, candRightInside,
    candTopInside, candBottomInside, updMin]

/-- The straight path emitted for Scenario A (5-unit clearance on both
markerless ends). -/
theorem exStraight_path :
    (updateEdgePosition exStraight false exStraightSq).path = .line ⟨105, 25⟩ ⟨195, 25⟩ := by
  simp only [updateEdgePosition]
  rw [if_neg (by simp)]
  simp only [if_pos (show (10 : ℚ) < exStraightSq.length by norm_num [exStraightSq]),
    segDx, segDy, exStraight_pathStart, exStraight_pathEnd]
  norm_num [hasStartArrow, hasEndArrow, exStraight, exStraightSq]

/-- Undoing a source translation restores the inputs exactly. -/
theorem translateSource_roundTrip (g : ConnInputs) (delta : Point) :
    translateSource (translateSource g delta) ⟨-delta.x, -delta.y⟩ = g := by
  cases g with
  | mk sb st tb tt ms me l =>
    cases st with
    | mk sx sy =>
      simp [translateSource]

/-- Undoing a target translation restores the inputs exactly. -/
theorem translateTarget_roundTrip (g : ConnInputs) (delta : Point) :
    translateTarget (translateTarget g delta) ⟨-delta.x, -delta.y⟩ = g := by
  cases g with
  | mk sb st tb tt ms me l =>
    cases tt with
    | mk tx ty =>
      simp [translateTarget]

/-- C5 counterexample: immediately after a fresh render the edge's `d`
attribute is the external renderer's own multi-segment path
(`exOriginalD`).  Dragging the source node by `(10, 0)` and back by
`(-10, 0)` (the Edge Router rewriting `d` on each move) leaves
`d = "M105,25 L195,25"` — the router's path for the restored positions —
which is not the pre-move string, so the round trip does not restore the
pre-move `d` on the first drag after a render. -/
theorem c5_counterexample :
    renderPath (updateEdgePosition
        (translateSource (translateSource exStraight ⟨10, 0⟩) ⟨-10, -0⟩)
        false exStraightSq).path = "M105,25 L195,25" ∧
    exOriginalD ≠ "M105,25 L195,25" ∧
    lenValid exStraight exStraightSq := by
  have hs : translateSource (translateSource exStraight ⟨10, 0⟩) ⟨-10, -0⟩ = exStraight := by
    have := translateSource_roundTrip exStraight ⟨10, 0⟩
    simpa using this
  refine ⟨?_, by decide, ?_, ?_⟩
  · rw [hs, exStraight_path]
    rfl
  · norm_num [exStraightSq]
  · simp only [segDx, segDy, exStraight_pathStart, exStraight_pathEnd]
    norm_num [exStraightSq]

/-- C5 amended: the Edge Router's output is a pure function of the nodes'
current offsets, so translating a node by `(dx, dy)`, routing, translating
back by `(-dx, -dy)` and routing again reproduces exactly the path (and
path string) the router emitted for the original offsets — the pre-move
`d` is restored provided it was itself produced by the router at those
offsets (true from the second drag onward, but not for the renderer's
original path on the first drag after a render). -/
theorem c5_amended (g : ConnInputs) (delta : Point) (mode : Bool) (sq : SqrtIn) :
    updateEdgePosition (translateSource (translateSource g delta) ⟨-delta.x, -delta.y⟩)
        mode sq = updateEdgePosition g mode sq ∧
    updateEdgePosition (translateTarget (translateTarget g delta) ⟨-delta.x, -delta.y⟩)
        mode sq = updateEdgePosition g mode sq ∧
    renderPath (updateEdgePosition
        (translateSource (translateSource g delta) ⟨-delta.x, -delta.y⟩) mode sq).path =
      renderPath (updateEdgePosition g mode sq).path := by
  rw [translateSource_roundTrip, translateTarget_roundTrip]
  exact ⟨rfl, rfl, rfl⟩

/-- The label position emitted for Scenario A with a measured `30 × 12`
label: horizontally centered on the midpoint `(150, 25)`, vertically *on*
the line. -/
theorem exStraight_label :
    (updateEdgePosition exStraight false exStraightSq).label = some ⟨135, 25⟩ := by
  simp only [updateEdgePosition]
  rw [if_neg (by simp)]
  simp only [if_pos (show (10 : ℚ) < exStraightSq.length by norm_num [exStraightSq]),
    segDx, segDy, exStraight_pathStart, exStraight_pathEnd]
  norm_num [hasStartArrow, hasEndArrow, labelBBox, exStraight, exStraightSq]

/-- C7 counterexample: in straight mode (Scenario A with a measured
`30 × 12` label) the label is placed at `(135, 25)` — the midpoint
`(150, 25)` of the rendered segment shifted only by half the label width —
with *zero* perpendicular offset, although half the label height plus the
small constant is `8 ≠ 0`; so the label is not "offset further along the
perpendicular" in straight mode. -/
theorem c7_counterexample :
    (updateEdgePosition exStraight false exStraightSq).label = some ⟨135, 25⟩ ∧
    (updateEdgePosition exStraight false exStraightSq).path = .line ⟨105, 25⟩ ⟨195, 25⟩ ∧
    (135 : ℚ) = (105 + 195) / 2 - (labelBBox exStraight).width / 2 ∧
    (25 : ℚ) = (25 + 25) / 2 ∧
    (labelBBox exStraight).height / 2 + 2 = 8 ∧
    (25 : ℚ) ≠ (25 + 25) / 2 + ((labelBBox exStraight).height / 2 + 2) ∧
    (25 : ℚ) ≠ (25 + 25) / 2 - ((labelBBox exStraight).height / 2 + 2) := by
  refine ⟨exStraight_label, exStraight_path, ?_, by norm_num, ?_, ?_, ?_⟩ <;>
    norm_num [labelBBox, exStraight]

/-- C7 amended: a present label is horizontally centered using its own
measured width in both modes; in curved mode it sits at the control point
offset along the normalised perpendicular by half the label height plus 2;
in straight mode it sits at the adjusted segment's midpoint with no
perpendicular offset. -/
theorem c7_amended (g : ConnInputs) (sq : SqrtIn) (hl : g.label.isSome) :
    (0 < sq.length →
      (updateEdgePosition g true sq).label = some
        ⟨(controlPoint g sq).x + (normPerp (segDx g) (segDy g) sq.perpLen).x *
            ((labelBBox g).height / 2 + 2) - (labelBBox g).width / 2,
         (controlPoint g sq).y + (normPerp (segDx g) (segDy g) sq.perpLen).y *
            ((labelBBox g).height / 2 + 2)⟩) ∧
    (∃ s e, (updateEdgePosition g false sq).path = .line s e ∧
      (updateEdgePosition g false sq).label =
        some ⟨(s.x + e.x) / 2 - (labelBBox g).width / 2, (s.y + e.y) / 2⟩) := by
  constructor
  · intro hpos
    simp only [updateEdgePosition]
    rw [if_pos ⟨trivial, hpos⟩]
    simp only [if_pos hl]
  · refine ⟨if 10 < sq.length then
        ⟨(pathStart0 g).x + segDx g / sq.length * (if hasStartArrow g then 20 else 5),
         (pathStart0 g).y + segDy g / sq.length * (if hasStartArrow g then 20 else 5)⟩
      else pathStart0 g,
      if 10 < sq.length then
        ⟨(pathEnd0 g).x - segDx g / sq.length * (if hasEndArrow g then 20 else 5),
         (pathEnd0 g).y - segDy g / sq.length * (if hasEndArrow g then 20 else 5)⟩
      else pathEnd0 g, ?_, ?_⟩
    · simp only [updateEdgePosition]
      rw [if_neg (by simp)]
    · simp only [updateEdgePosition]
      rw [if_neg (by simp)]
      simp only [if_pos hl]

/-- Witness for C7 (amended) at Scenario A with its `30 × 12` label. -/
theorem c7_amended_witness :
    exStraight.label.isSome = true ∧
    (∃ s e, (updateEdgePosition exStraight false exStraightSq).path = .line s e ∧
      (updateEdgePosition exStraight false exStraightSq).label =
        some ⟨(s.x + e.x) / 2 - (labelBBox exStraight).width / 2, (s.y + e.y) / 2⟩) :=
  ⟨rfl, (c7_amended exStraight exStraightSq rfl).2⟩

/-! Checked evaluation never hits a division by zero: each `checked…`
computation returns `some` of the plain result, because every division in
the source sits behind a guard (a sign test, a `=== 0` ternary, or the
`length > 10` threshold) that implies its denominator is nonzero. -/

theorem candLeftInsideC_eq (rect : Rect) (a b dx dy : ℚ) :
    candLeftInsideC rect a b dx dy = some (candLeftInside rect a b dx dy) := by
  unfold candLeftInsideC candLeftInside safeDiv
  split_ifs with h1 h2 <;> first | rfl | (exact absurd h2 (ne_of_lt h1))

theorem candRightInsideC_eq (rect : Rect) (a b dx dy : ℚ) :
    candRightInsideC rect a b dx dy = some (candRightInside rect a b dx dy) := by
  unfold candRightInsideC candRightInside safeDiv
  split_ifs with h1 h2 <;> first | rfl | (exact absurd h2 (ne_of_gt h1))

theorem candTopInsideC_eq (rect : Rect) (a b dx dy : ℚ) :
    candTopInsideC rect a b dx dy = some (candTopInside rect a b dx dy) := by
  unfold candTopInsideC candTopInside safeDiv
  split_ifs with h1 h2 <;> first | rfl | (exact absurd h2 (ne_of_lt h1))

theorem candBottomInsideC_eq (rect : Rect) (a b dx dy : ℚ) :
    candBottomInsideC rect a b dx dy = some (candBottomInside rect a b dx dy) := by
  unfold candBottomInsideC candBottomInside safeDiv
  split_ifs with h1 h2 <;> first | rfl | (exact absurd h2 (ne_of_gt h1))

theorem candLeftOutsideC_eq (rect : Rect) (a b dx dy : ℚ) :
    candLeftOutsideC rect a b dx dy = some (candLeftOutside rect a b dx dy) := by
  unfold candLeftOutsideC candLeftOutside safeDiv
  split_ifs with h1 h2 <;> first | rfl | (exact absurd h2 h1)

theorem candRightOutsideC_eq (rect : Rect) (a b dx dy : ℚ) :
    candRightOutsideC rect a b dx dy = some (candRightOutside rect a b dx dy) := by
  unfold candRightOutsideC candRightOutside safeDiv
  split_ifs with h1 h2 <;> first | rfl | (exact absurd h2 h1)

theorem candTopOutsideC_eq (rect : Rect) (a b dx dy : ℚ) :
    candTopOutsideC rect a b dx dy = some (candTopOutside rect a b dx dy) := by
  unfold candTopOutsideC candTopOutside safeDiv
  split_ifs with h1 h2 <;> first | rfl | (exact absurd h2 h1)

theorem candBottomOutsideC_eq (rect : Rect) (a b dx dy : ℚ) :
    candBottomOutsideC rect a b dx dy = some (candBottomOutside rect a b dx dy) := by
  unfold candBottomOutsideC candBottomOutside safeDiv
  split_ifs with h1 h2 <;> first | rfl | (exact absurd h2 h1)

theorem checkedFindIntersection_eq (rect : Rect) (a b c d : ℚ) :
    checkedFindIntersection rect a b c d = some (findIntersection rect a b c d) := by
  unfold checkedFindIntersection findIntersection insideBest outsideBest
  simp only [candLeftInsideC_eq, candRightInsideC_eq, candTopInsideC_eq,
    candBottomInsideC_eq, candLeftOutsideC_eq, candRightOutsideC_eq, candTopOutsideC_eq,
    candBottomOutsideC_eq, Option.some_bind, Option.bind_some, Option.pure_def,
    Option.bind_eq_bind]
  split_ifs with h
  · cases updMin (updMin (updMin (updMin none (candLeftInside rect a b (c - a) (d - b)))
        (candRightInside rect a b (c - a) (d - b)))
        (candTopInside rect a b (c - a) (d - b)))
      (candBottomInside rect a b (c - a) (d - b)) with
    | some v => rfl
    | none =>
      cases updMin (updMin (updMin (updMin none (candLeftOutside rect a b (c - a) (d - b)))
          (candRightOutside rect a b (c - a) (d - b)))
          (candTopOutside rect a b (c - a) (d - b)))
        (candBottomOutside rect a b (c - a) (d - b)) with
      | some v => rfl
      | none => rfl
  · cases updMin (updMin (updMin (updMin none (candLeftOutside rect a b (c - a) (d - b)))
        (candRightOutside rect a b (c - a) (d - b)))
        (candTopOutside rect a b (c - a) (d - b)))
      (candBottomOutside rect a b (c - a) (d - b)) with
    | some v => rfl
    | none => rfl

theorem checkedNormPerp_eq (dx dy L : ℚ) :
    checkedNormPerp dx dy L = some (normPerp dx dy L) := by
  unfold checkedNormPerp normPerp safeDiv
  split_ifs with h1 h2 <;> first | rfl | (exact absurd h2 h1)

theorem checkedCurvedAdjStart_eq (g : ConnInputs) (sq : SqrtIn) :
    checkedCurvedAdjStart g sq = some (curvedAdjStart g sq) := by
  unfold checkedCurvedAdjStart curvedAdjStart safeDiv
  split_ifs with h1 h2 <;> first | rfl | (exact absurd h2 h1)

theorem checkedCurvedAdjEnd_eq (g : ConnInputs) (sq : SqrtIn) :
    checkedCurvedAdjEnd g sq = some (curvedAdjEnd g sq) := by
  unfold checkedCurvedAdjEnd curvedAdjEnd safeDiv
  split_ifs with h1 h2 <;> first | rfl | (exact absurd h2 h1)

/-- No call of `updateEdgePosition` ever evaluates a division by zero:
its checked evaluation always succeeds with the plain result. -/
theorem checkedUpdateEdgePosition_eq (g : ConnInputs) (mode : Bool) (sq : SqrtIn) :
    checkedUpdateEdgePosition g mode sq = some (updateEdgePosition g mode sq) := by
  unfold checkedUpdateEdgePosition updateEdgePosition
  simp only [checkedFindIntersection_eq, checkedNormPerp_eq, checkedCurvedAdjStart_eq,
    checkedCurvedAdjEnd_eq, Option.some_bind, Option.bind_some, Option.pure_def,
    Option.bind_eq_bind]
  by_cases hcv : mode = true ∧ 0 < sq.length
  · rw [if_pos hcv, if_pos hcv]
    by_cases hgt : (10 : ℚ) < sq.length
    · simp only [if_pos hgt, Option.some_bind]
      rfl
    · simp only [if_neg hgt, Option.some_bind]
      rfl
  · rw [if_neg hcv, if_neg hcv]
    by_cases hgt : (10 : ℚ) < sq.length
    · -- the `length > 10` threshold guards the straight normalisation
      have hL : sq.length ≠ 0 := by
        intro h0
        rw [h0] at hgt
        exact absurd hgt (by norm_num)
      simp only [if_pos hgt, safeDiv, if_neg hL, Option.some_bind]
      rfl
    · simp only [if_neg hgt, Option.some_bind]
      rfl

/-- Clipped start for `exCoincident`: the degenerate fallback on the
small box's left edge. -/
theorem exCoincident_pathStart : pathStart0 exCoincident = ⟨-5, 0⟩ := by
  norm_num [pathStart0, exCoincident, sourceRect, sourceCenter, targetCenter, getNodeRect,
    getNodeCenterPosition, findIntersection, insideBest, candLeftInside, candRightInside,
    candTopInside, candBottomInside, outsideBest, candLeftOutside, candRightOutside,
    candTopOutside, candBottomOutside, updMin, nearestEdgeFallback]

/-- Clipped end for `exCoincident`: the degenerate fallback on the large
box's left edge, fifteen units away from the clipped start. -/
theorem exCoincident_pathEnd : pathEnd0 exCoincident = ⟨-20, 0⟩ := by
  norm_num [pathEnd0, exCoincident, targetRect, sourceCenter, targetCenter, getNodeRect,
    getNodeCenterPosition, findIntersection, insideBest, candLeftInside, candRightInside,
    candTopInside, candBottomInside, outsideBest, candLeftOutside, candRightOutside,
    candTopOutside, candBottomOutside, updMin, nearestEdgeFallback]

/-- The straight path emitted for `exCoincident`: the 5-unit clearance IS
applied (the clipped segment is 15 > 10 units long). -/
theorem exCoincident_path :
    (updateEdgePosition exCoincident false exCoincidentSq).path =
      .line ⟨-10, 0⟩ ⟨-15, 0⟩ := by
  simp only [updateEdgePosition]
  rw [if_neg (by simp)]
  simp only [if_pos (show (10 : ℚ) < exCoincidentSq.length by norm_num [exCoincidentSq]),
    segDx, segDy, exCoincident_pathStart, exCoincident_pathEnd]
  norm_num [hasStartArrow, hasEndArrow, exCoincident, exCoincidentSq]

/-- C9 counterexample: two nodes with coincident centers (a `10 × 10` and
a `40 × 60` box both centered at the origin) clip to `(-5, 0)` and
`(-20, 0)` — fifteen units apart, above the threshold — so the
offset/clearance logic does *not* detect a short segment and moves the
endpoints (to `(-10, 0)` and `(-15, 0)`): coincident centers alone do not
make the router skip offsetting. -/
theorem c9_counterexample :
    sourceCenter exCoincident = targetCenter exCoincident ∧
    lenValid exCoincident exCoincidentSq ∧
    10 < exCoincidentSq.length ∧
    (updateEdgePosition exCoincident false exCoincidentSq).path =
      .line ⟨-10, 0⟩ ⟨-15, 0⟩ ∧
    (⟨-10, 0⟩ : Point) ≠ pathStart0 exCoincident := by
  refine ⟨?_, ⟨by norm_num [exCoincidentSq], ?_⟩, by norm_num [exCoincidentSq],
    exCoincident_path, ?_⟩
  · norm_num [sourceCenter, targetCenter, getNodeCenterPosition, exCoincident]
  · simp only [segDx, segDy, exCoincident_pathStart, exCoincident_pathEnd]
    norm_num [exCoincidentSq]
  · rw [exCoincident_pathStart]
    simp [Point.mk.injEq]

/-- C9 amended: the emitted path never contains a `NaN` coordinate — the
checked evaluation (which fails wherever the source would divide by zero)
always succeeds, every normalisation being guarded — and for nodes with
coincident centers the offsetting is skipped when the *clipped* segment is
within the threshold, which is guaranteed when the two world rectangles
coincide (zero-length clipped segment) but not by center-coincidence
alone. -/
theorem c9_amended (g : ConnInputs) (mode : Bool) (sq : SqrtIn)
    (hc : sourceCenter g = targetCenter g) (hlen : lenValid g sq) :
    checkedUpdateEdgePosition g mode sq = some (updateEdgePosition g mode sq) ∧
    (sourceRect g = targetRect g →
      (updateEdgePosition g mode sq).path = .line (pathStart0 g) (pathStart0 g)) := by
  refine ⟨checkedUpdateEdgePosition_eq g mode sq, ?_⟩
  intro hr
  have hpe : pathEnd0 g = pathStart0 g := by
    unfold pathStart0 pathEnd0
    rw [hr, hc]
  have hdx : segDx g = 0 := by rw [segDx, hpe, sub_self]
  have hdy : segDy g = 0 := by rw [segDy, hpe, sub_self]
  have h0 : sq.length = 0 := by
    refine sqrtParam_unique hlen.1 le_rfl ?_
    rw [hlen.2, hdx, hdy]
    norm_num
  simp only [updateEdgePosition]
  rw [if_neg (fun hcc => absurd hcc.2 (by rw [h0]; norm_num))]
  simp only [if_neg (show ¬(10 : ℚ) < sq.length by rw [h0]; norm_num)]
  rw [hpe]

/-- Witness for C9 (amended) at two identical `10 × 10` boxes centered at
the origin. -/
theorem c9_amended_witness :
    (sourceCenter exCoincidentEq = targetCenter exCoincidentEq ∧
      lenValid exCoincidentEq exCoincidentEqSq ∧
      sourceRect exCoincidentEq = targetRect exCoincidentEq) ∧
    checkedUpdateEdgePosition exCoincidentEq false exCoincidentEqSq =
      some (updateEdgePosition exCoincidentEq false exCoincidentEqSq) ∧
    (updateEdgePosition exCoincidentEq false exCoincidentEqSq).path =
      .line (pathStart0 exCoincidentEq) (pathStart0 exCoincidentEq) := by
  have hc : sourceCenter exCoincidentEq = targetCenter exCoincidentEq := by
    norm_num [sourceCenter, targetCenter, getNodeCenterPosition, exCoincidentEq]
  have hr : sourceRect exCoincidentEq = targetRect exCoincidentEq := by
    norm_num [sourceRect, targetRect, getNodeRect, exCoincidentEq]
  have hpe : pathEnd0 exCoincidentEq = pathStart0 exCoincidentEq := by
    unfold pathStart0 pathEnd0
    rw [hr, hc]
  have hlen : lenValid exCoincidentEq exCoincidentEqSq := by
    refine ⟨by norm_num [exCoincidentEqSq], ?_⟩
    simp only [segDx, segDy, hpe, sub_self]
    norm_num [exCoincidentEqSq]
  have h := c9_amended exCoincidentEq false exCoincidentEqSq hc hlen
  exact ⟨⟨hc, hlen, hr⟩, h.1, h.2 hr⟩

/-- Membership after a `Map.set`: the new pair or an old one. -/
theorem mapSet_mem {α β : Type} [DecidableEq α] {m : List (α × β)} {k : α} {v : β}
    {p : α × β} (h : p ∈ mapSet m k v) : p = (k, v) ∨ p ∈ m := by
  induction m with
  | nil =>
    simp only [mapSet, List.mem_singleton] at h
    exact Or.inl h
  | cons q rest ih =>
    simp only [mapSet] at h
    split_ifs at h with hk
    · rcases List.mem_cons.mp h with h1 | h1
      · exact Or.inl h1
      · exact Or.inr (List.mem_cons_of_mem _ h1)
    · rcases List.mem_cons.mp h with h1 | h1
      · exact Or.inr (h1 ▸ List.mem_cons_self _ _)
      · rcases ih h1 with h2 | h2
        · exact Or.inl h2
        · exact Or.inr (List.mem_cons_of_mem _ h2)

/-- Every value stored in the node map is one of the rendered nodes. -/
theorem buildNodeMap_mem {nodes : List SvgNode} {p : String × SvgNode}
    (h : p ∈ buildNodeMap nodes) : p.2 ∈ nodes := by
  suffices hgen : ∀ (l : List SvgNode) (acc : List (String × SvgNode)),
      p ∈ l.foldl (fun m n => if n.id ≠ "" then mapSet m n.id n else m) acc →
      p.2 ∈ l ∨ p ∈ acc by
    rcases hgen nodes [] h with h1 | h1
    · exact h1
    · exact absurd h1 (List.not_mem_nil _)
  intro l
  induction l with
  | nil =>
    intro acc h
    exact Or.inr h
  | cons n rest ih =>
    intro acc h
    rcases ih _ h with h1 | h1
    · exact Or.inl (List.mem_cons_of_mem _ h1)
    · dsimp only at h1
      by_cases hid : n.id ≠ ""
      · rw [if_pos hid] at h1
        rcases mapSet_mem h1 with h2 | h2
        · rw [h2]
          exact Or.inl (List.mem_cons_self _ _)
        · exact Or.inr h2
      · rw [if_neg hid] at h1
        exact Or.inr h1

/-- A successful `nodeMap.get` returns a stored value. -/
theorem mapGet_mem {m : List (String × SvgNode)} {k : String} {v : SvgNode}
    (h : mapGet m k = some v) : ∃ k', (k', v) ∈ m := by
  unfold mapGet at h
  cases hf : m.find? (fun p => decide (p.1 = k)) with
  | none => rw [hf] at h; simp at h
  | some q =>
    rw [hf] at h
    have hq : q.2 = v := by simpa using h
    exact ⟨q.1, by rw [← hq]; exact List.mem_of_find?_eq_some hf⟩

/-- Where each entry of the folded connection index comes from: an edge of
the processed list whose source and target names both resolved. -/
theorem analyzeStep_fold_mem (nodeMap : List (String × SvgNode)) (labels : List SvgLabel) :
    ∀ (l : List (ℕ × SvgEdge)) (acc : List (String × Connection)) (k : String)
      (c : Connection), (k, c) ∈ l.foldl (analyzeStep nodeMap labels) acc →
      (∃ i e sid tid, (i, e) ∈ l ∧
        findNodeId nodeMap (edgeNames e i).1 = some sid ∧
        findNodeId nodeMap (edgeNames e i).2 = some tid ∧
        mapGet nodeMap sid = some c.source ∧
        mapGet nodeMap tid = some c.target ∧
        c.edge = e) ∨ (k, c) ∈ acc := by
  intro l
  induction l with
  | nil =>
    intro acc k c h
    exact Or.inr h
  | cons ie rest ih =>
    intro acc k c h
    obtain ⟨i, e⟩ := ie
    rcases ih _ k c h with h1 | h1
    · obtain ⟨i', e', sid, tid, hmem, hrest⟩ := h1
      exact Or.inl ⟨i', e', sid, tid, List.mem_cons_of_mem _ hmem, hrest⟩
    · simp only [analyzeStep] at h1
      rcases hs : findNodeId nodeMap (edgeNames e i).1 with _ | sid
      · rw [hs] at h1
        dsimp only at h1
        exact Or.inr h1
      · rw [hs] at h1
        rcases ht : findNodeId nodeMap (edgeNames e i).2 with _ | tid
        · rw [ht] at h1
          dsimp only at h1
          exact Or.inr h1
        · rw [ht] at h1
          dsimp only at h1
          rcases hsn : mapGet nodeMap sid with _ | sn
          · rw [hsn] at h1
            dsimp only at h1
            exact Or.inr h1
          · rw [hsn] at h1
            rcases htn : mapGet nodeMap tid with _ | tn
            · rw [htn] at h1
              dsimp only at h1
              exact Or.inr h1
            · rw [htn] at h1
              dsimp only at h1
              rcases mapSet_mem h1 with h2 | h2
              · have hcv : c = _ := (Prod.ext_iff.mp h2).2
                refine Or.inl ⟨i, e, sid, tid, List.mem_cons_self _ _, hs, ht, ?_, ?_, ?_⟩
                · rw [hcv]
                  exact hsn
                · rw [hcv]
                  exact htn
                · rw [hcv]
              · exact Or.inr h2

/-- C6: Every entry stored in the Connection Index has both a resolved
source node and a resolved target node present in the current render; an
edge whose source or target identifier cannot be resolved (at any position
it occupies in the edge list) is absent from the index entirely, and every
connection an Edge Router pass (`updateConnectedEdges`) processes comes
from the index. -/
theorem c6_connection_index (nodes : List SvgNode) (edges : List SvgEdge)
    (labels : List SvgLabel) :
    (∀ k c, (k, c) ∈ analyzeEdges nodes edges labels →
      c.source ∈ nodes ∧ c.target ∈ nodes) ∧
    (∀ e : SvgEdge,
      (∀ i, (i, e) ∈ edges.enum →
        findNodeId (buildNodeMap nodes) (edgeNames e i).1 = none ∨
        findNodeId (buildNodeMap nodes) (edgeNames e i).2 = none) →
      ∀ k c, (k, c) ∈ analyzeEdges nodes edges labels → c.edge ≠ e) ∧
    (∀ node c, c ∈ updateConnectedEdges node (analyzeEdges nodes edges labels) →
      ∃ k, (k, c) ∈ analyzeEdges nodes edges labels) := by
  refine ⟨?_, ?_, ?_⟩
  · intro k c h
    rcases analyzeStep_fold_mem (buildNodeMap nodes) labels edges.enum [] k c h with
        h1 | h1
    · obtain ⟨i, e, sid, tid, -, -, -, hsn, htn, -⟩ := h1
      obtain ⟨ks, hks⟩ := mapGet_mem hsn
      obtain ⟨kt, hkt⟩ := mapGet_mem htn
      exact ⟨buildNodeMap_mem hks, buildNodeMap_mem hkt⟩
    · exact absurd h1 (List.not_mem_nil _)
  · intro e hunres k c h hedge
    rcases analyzeStep_fold_mem (buildNodeMap nodes) labels edges.enum [] k c h with
        h1 | h1
    · obtain ⟨i, e', sid, tid, hmem, hs, ht, -, -, hce⟩ := h1
      have he : e' = e := by rw [← hce, hedge]
      rw [he] at hmem hs ht
      rcases hunres i hmem with hnone | hnone
      · rw [hs] at hnone
        exact Option.noConfusion hnone
      · rw [ht] at hnone
        exact Option.noConfusion hnone
    · exact absurd h1 (List.not_mem_nil _)
  · intro node c h
    unfold updateConnectedEdges at h
    split_ifs at h with hid
    · simp at h
    · obtain ⟨⟨k, c'⟩, hmem, hc⟩ := List.mem_map.mp h
      exact ⟨k, by rw [← hc]; exact (List.mem_filter.mp hmem).1⟩

/-- Witness for C6 at the concrete render `exNodes`/`exEdges`: the
resolved `Animal → Dog` entry's endpoints are rendered nodes, and the
index entry is not the unresolvable `Animal → Cat` edge. -/
theorem c6_connection_index_witness :
    (("id_Animal_Dog_1", exGoodConn) ∈ analyzeEdges exNodes exEdges [] ∧
      (∀ i, (i, exBadEdge) ∈ exEdges.enum →
        findNodeId (buildNodeMap exNodes) (edgeNames exBadEdge i).1 = none ∨
        findNodeId (buildNodeMap exNodes) (edgeNames exBadEdge i).2 = none)) ∧
    (exGoodConn.source ∈ exNodes ∧ exGoodConn.target ∈ exNodes) ∧
    exGoodConn.edge ≠ exBadEdge := by
  have hidx : analyzeEdges exNodes exEdges [] = [("id_Animal_Dog_1", exGoodConn)] := rfl
  have hmem : ("id_Animal_Dog_1", exGoodConn) ∈ analyzeEdges exNodes exEdges [] := by
    rw [hidx]
    exact List.mem_singleton_self _
  have hunres : ∀ i, (i, exBadEdge) ∈ exEdges.enum →
      findNodeId (buildNodeMap exNodes) (edgeNames exBadEdge i).1 = none ∨
      findNodeId (buildNodeMap exNodes) (edgeNames exBadEdge i).2 = none := by
    intro i hi
    have henum : exEdges.enum = [(0, exGoodEdge), (1, exBadEdge)] := rfl
    rw [henum] at hi
    rcases List.mem_cons.mp hi with h0 | h0
    · exact absurd (congrArg Prod.snd h0) (show ¬exBadEdge = exGoodEdge by decide)
    · have h1 : i = 1 := congrArg Prod.fst (List.mem_singleton.mp h0)
      rw [h1]
      exact Or.inr (by decide)
  exact ⟨⟨hmem, hunres⟩,
    (c6_connection_index exNodes exEdges []).1 "id_Animal_Dog_1" exGoodConn hmem,
    (c6_connection_index exNodes exEdges []).2.1 exBadEdge hunres "id_Animal_Dog_1"
      exGoodConn hmem⟩

/-- `x || 0` never yields `NaN`. -/
theorem jsOr0_ne_nan (v : JsNum) : jsOr0 v ≠ .nan := by
  unfold jsOr0
  split_ifs with h
  · exact fun hc => JsNum.noConfusion hc
  · intro hc
    exact h (Or.inl hc)

/-- `x || 0` is finite whenever its input is not an infinity. -/
theorem jsOr0_finite {v : JsNum} (h1 : v ≠ .posInf) (h2 : v ≠ .negInf) :
    (jsOr0 v).isFinite = true := by
  cases v with
  | fin q =>
    unfold jsOr0
    split_ifs <;> rfl
  | posInf => exact absurd rfl h1
  | negInf => exact absurd rfl h2
  | nan => rfl

/-- C10 counterexample: a transform attribute of `translate(Infinity,0)`
(as `parseFloat` produces for an `Infinity` or overflowing component)
passes the `|| 0` guard — which only catches `NaN` and `0` — so
`getNodeTransform` returns a non-finite x component: it does not always
return a pair of finite numbers. -/
theorem c10_counterexample :
    getNodeTransform exRegexMatch exParseFloat (some "translate(Infinity,0)") =
      (.posInf, .fin 0) ∧
    JsNum.isFinite .posInf = false := by
  constructor
  · unfold getNodeTransform exRegexMatch exParseFloat jsOr0
    decide
  · rfl

/-- C10 amended: `getNodeTransform` is total and never returns `NaN` in
either component; an absent or non-matching transform attribute and a
`NaN`-parsing (or absent) component each default to `0`; and the result is
a pair of finite numbers whenever `parseFloat` yields no infinity (an
infinite `parseFloat` result is passed through unchanged). -/
theorem c10_amended (rm : String → Option (String × Option String))
    (pf : String → JsNum) (attr : Option String) :
    ((getNodeTransform rm pf attr).1 ≠ .nan ∧ (getNodeTransform rm pf attr).2 ≠ .nan) ∧
    (∀ s, s ≠ "" → rm s = none → getNodeTransform rm pf (some s) = (.fin 0, .fin 0)) ∧
    (∀ s m1 m2, s ≠ "" → rm s = some (m1, m2) → pf m1 = .nan →
      (getNodeTransform rm pf (some s)).1 = .fin 0) ∧
    (∀ s m1, s ≠ "" → rm s = some (m1, none) →
      (getNodeTransform rm pf (some s)).2 = .fin 0) ∧
    ((∀ str, pf str ≠ .posInf ∧ pf str ≠ .negInf) →
      (getNodeTransform rm pf attr).1.isFinite = true ∧
      (getNodeTransform rm pf attr).2.isFinite = true) := by
  refine ⟨?_, ?_, ?_, ?_, ?_⟩
  · unfold getNodeTransform
    rcases attr with _ | s
    · dsimp only
      rcases hr : rm "translate(0,0)" with _ | ⟨m1, m2⟩
      · exact ⟨fun hc => JsNum.noConfusion hc, fun hc => JsNum.noConfusion hc⟩
      · rcases m2 with _ | s2
        · exact ⟨jsOr0_ne_nan _, jsOr0_ne_nan .nan⟩
        · exact ⟨jsOr0_ne_nan _, jsOr0_ne_nan (pf s2)⟩
    · dsimp only
      by_cases hs : s = ""
      · rw [if_pos hs]
        rcases hr : rm "translate(0,0)" with _ | ⟨m1, m2⟩
        · exact ⟨fun hc => JsNum.noConfusion hc, fun hc => JsNum.noConfusion hc⟩
        · rcases m2 with _ | s2
          · exact ⟨jsOr0_ne_nan _, jsOr0_ne_nan .nan⟩
          · exact ⟨jsOr0_ne_nan _, jsOr0_ne_nan (pf s2)⟩
      · rw [if_neg hs]
        rcases hr : rm s with _ | ⟨m1, m2⟩
        · exact ⟨fun hc => JsNum.noConfusion hc, fun hc => JsNum.noConfusion hc⟩
        · rcases m2 with _ | s2
          · exact ⟨jsOr0_ne_nan _, jsOr0_ne_nan .nan⟩
          · exact ⟨jsOr0_ne_nan _, jsOr0_ne_nan (pf s2)⟩
  · intro s hs hr
    unfold getNodeTransform
    dsimp only
    rw [if_neg hs, hr]
  · intro s m1 m2 hs hr hnan
    unfold getNodeTransform
    dsimp only
    rw [if_neg hs, hr]
    dsimp only
    rw [hnan]
    rfl
  · intro s m1 hs hr
    unfold getNodeTransform
    dsimp only
    rw [if_neg hs, hr]
    rfl
  · intro hfin
    unfold getNodeTransform
    rcases attr with _ | s
    · dsimp only
      rcases hr : rm "translate(0,0)" with _ | ⟨m1, m2⟩
      · exact ⟨rfl, rfl⟩
      · rcases m2 with _ | s2
        · exact ⟨jsOr0_finite (hfin m1).1 (hfin m1).2, by rfl⟩
        · exact ⟨jsOr0_finite (hfin m1).1 (hfin m1).2,
            jsOr0_finite (hfin s2).1 (hfin s2).2⟩
    · dsimp only
      by_cases hs : s = ""
      · rw [if_pos hs]
        rcases hr : rm "translate(0,0)" with _ | ⟨m1, m2⟩
        · exact ⟨rfl, rfl⟩
        · rcases m2 with _ | s2
          · exact ⟨jsOr0_finite (hfin m1).1 (hfin m1).2, by rfl⟩
          · exact ⟨jsOr0_finite (hfin m1).1 (hfin m1).2,
              jsOr0_finite (hfin s2).1 (hfin s2).2⟩
      · rw [if_neg hs]
        rcases hr : rm s with _ | ⟨m1, m2⟩
        · exact ⟨rfl, rfl⟩
        · rcases m2 with _ | s2
          · exact ⟨jsOr0_finite (hfin m1).1 (hfin m1).2, by rfl⟩
          · exact ⟨jsOr0_finite (hfin m1).1 (hfin m1).2,
              jsOr0_finite (hfin s2).1 (hfin s2).2⟩

/-- Witness for C10 (amended): an absent attribute, and an attribute the
pattern does not match, both give the `(0, 0)` default. -/
theorem c10_amended_witness :
    ((getNodeTransform exRegexMatch exParseFloat none).1 ≠ .nan ∧
      (getNodeTransform exRegexMatch exParseFloat none).2 ≠ .nan) ∧
    getNodeTransform exRegexMatch exParseFloat (some "nonsense") =
      (.fin 0, .fin 0) :=
  ⟨(c10_amended exRegexMatch exParseFloat none).1,
   (c10_amended exRegexMatch exParseFloat none).2.1 "nonsense" (by decide) (by decide)⟩

end MermaidViewer
